import Mathlib

/-!
Verification of the news-aggregation pipeline (Yahoo Finance / Naver Finance
crawlers, `src/main.py` aggregator).  The Python code is shallowly embedded:

* `datetime` values are the `Date` structure (year/month/day/hour/minute/second
  as `Nat`); `datetime` comparison is lexicographic on the components, which for
  in-range components coincides with comparing the `toSec` encoding.
* `datetime.strptime` for the concrete formats used by the code is embedded as
  backtracking character-list parsers mirroring Python's `_strptime` regexes
  (`%Y` is exactly four digits, `%m`/`%d`/`%H`/`%M`/`%S` are one or two digits
  with the regex's alternation order, whitespace in the format matches one or
  more whitespace characters, and the resulting components are range-checked
  exactly as the `datetime` constructor checks them).
* `strftime('%Y-%m-%d %H:%M')` is embedded as `fmtDate` (zero-padded fields).
* Python `str.lower` / `str.strip` / `str.replace` are embedded as ASCII-level
  character-list operations (`pyLower`, `pyStrip`, `replaceGMT`).
* network fetches (`requests`, BeautifulSoup field extraction) are oracle
  functions passed to each crawler: `none` models a raised request exception,
  `some` models the fields the code extracts from the response.
* `yahoo_finance.py` never binds the `logger` name it uses, so its methods
  raise `NameError` on every call: the `..._run` definitions embed that
  shipped behavior (`Except.error` = an escaping exception), while the
  loop definitions keep the bound-`logger` counterfactual that the methods'
  docstrings and the spec describe.
-/

/-- A record of the pipeline: the dictionaries built by every crawler method
carry exactly the keys `date`, `title`, `content`, `source`, `url`. -/
structure News where
  date : String
  title : String
  content : String
  source : String
  url : String
deriving DecidableEq, Repr

/-- Embedding of a (timezone-free) Python `datetime` down to seconds. -/
structure Date where
  year : Nat
  month : Nat
  day : Nat
  hour : Nat
  minute : Nat
  second : Nat
deriving DecidableEq, Repr

/-- Gregorian leap-year test, as in Python's `calendar.isleap`. -/
def isLeap (y : Nat) : Bool := y % 4 = 0 && (y % 100 ≠ 0 || y % 400 = 0)

/-- Length of a month, used by the `datetime` constructor's day range check. -/
def daysInMonth (y m : Nat) : Nat :=
  if m = 1 || m = 3 || m = 5 || m = 7 || m = 8 || m = 10 || m = 12 then 31
  else if m = 4 || m = 6 || m = 9 || m = 11 then 30
  else if isLeap y then 29 else 28

/-- The range checks performed by the `datetime(y, m, d, h, mi, s)` constructor:
`MINYEAR ≤ y ≤ MAXYEAR`, month, day-in-month, hour, minute, second ranges. -/
def dateOK (y m d h mi s : Nat) : Bool :=
  1 ≤ y && y ≤ 9999 && 1 ≤ m && m ≤ 12 && 1 ≤ d && d ≤ daysInMonth y m &&
    h ≤ 23 && mi ≤ 59 && s ≤ 59

/-- Building a `datetime` from parsed components; `none` models the
`ValueError` raised on out-of-range components. -/
def mkDateChecked (y m d h mi s : Nat) : Option Date :=
  if dateOK y m d h mi s then some ⟨y, m, d, h, mi, s⟩ else none

/-- A `Date` whose components pass the `datetime` constructor checks. -/
def validDate (d : Date) : Bool :=
  dateOK d.year d.month d.day d.hour d.minute d.second

/-- Strictly monotone encoding of a `Date`; on dates with in-range components
its order is exactly Python's lexicographic `datetime` comparison. -/
def toSec (d : Date) : Nat :=
  ((((d.year * 13 + d.month) * 32 + d.day) * 24 + d.hour) * 60 + d.minute) * 60 + d.second

/-- The decimal digit characters (used to embed zero-padded `strftime`). -/
def digitChar : Nat → Char
  | 0 => '0' | 1 => '1' | 2 => '2' | 3 => '3' | 4 => '4'
  | 5 => '5' | 6 => '6' | 7 => '7' | 8 => '8' | _ => '9'

/-- Numeric value of a digit character. -/
def digitVal (c : Char) : Nat := c.toNat - 48

/-- Embedding of `strftime('%Y-%m-%d %H:%M')`: all fields zero-padded
(year to four digits, the rest to two). -/
def fmtDate (d : Date) : String :=
  ⟨[digitChar (d.year / 1000 % 10), digitChar (d.year / 100 % 10),
    digitChar (d.year / 10 % 10), digitChar (d.year % 10), '-',
    digitChar (d.month / 10 % 10), digitChar (d.month % 10), '-',
    digitChar (d.day / 10 % 10), digitChar (d.day % 10), ' ',
    digitChar (d.hour / 10 % 10), digitChar (d.hour % 10), ':',
    digitChar (d.minute / 10 % 10), digitChar (d.minute % 10)]⟩

/-- ASCII whitespace, the characters matched by `\s` (and stripped by
`str.strip`) on the inputs this pipeline sees. -/
def isSpaceC (c : Char) : Bool :=
  c = ' ' || c = '\t' || c = '\n' || c = '\r' || c = '\x0b' || c = '\x0c'

/-- `strptime` numeric field matching one or two digits.  `ok2` is the
two-digit alternative of the format regex, `ok1` the one-digit one; the
two-digit branch is tried first and the regex engine backtracks into the
continuation `k`, exactly like `(1[0-2]|0[1-9]|[1-9])` and friends. -/
def field2or1 {α : Type} (ok2 ok1 : Nat → Bool) (k : Nat → List Char → Option α) :
    List Char → Option α
  | c1 :: c2 :: rest =>
    if c1.isDigit && c2.isDigit && ok2 (digitVal c1 * 10 + digitVal c2) then
      match k (digitVal c1 * 10 + digitVal c2) rest with
      | some x => some x
      | none => if ok1 (digitVal c1) then k (digitVal c1) (c2 :: rest) else none
    else if c1.isDigit && ok1 (digitVal c1) then k (digitVal c1) (c2 :: rest) else none
  | [c1] => if c1.isDigit && ok1 (digitVal c1) then k (digitVal c1) [] else none
  | [] => none

/-- A literal character of a `strptime` format string. -/
def lit {α : Type} (c : Char) (k : List Char → Option α) : List Char → Option α
  | x :: rest => if x = c then k rest else none
  | [] => none

/-- Whitespace in a `strptime` format string matches `\s+`. -/
def wsPlus {α : Type} (k : List Char → Option α) : List Char → Option α
  | x :: rest => if isSpaceC x then k (rest.dropWhile isSpaceC) else none
  | [] => none

/-- `%Y`: exactly four digits (Python's `_strptime` regex `\d\d\d\d`). -/
def year4 {α : Type} (k : Nat → List Char → Option α) : List Char → Option α
  | a :: b :: c :: d :: rest =>
    if a.isDigit && b.isDigit && c.isDigit && d.isDigit then
      k (((digitVal a * 10 + digitVal b) * 10 + digitVal c) * 10 + digitVal d) rest
    else none
  | _ => none

/-- Two-digit alternative of `%m`: values 01–12. -/
def monthOK2 (v : Nat) : Bool := 1 ≤ v && v ≤ 12

/-- One-digit alternative of `%m`: `[1-9]`. -/
def monthOK1 (v : Nat) : Bool := 1 ≤ v

/-- Two-digit alternative of `%d`: values 01–31. -/
def dayOK2 (v : Nat) : Bool := 1 ≤ v && v ≤ 31

/-- One-digit alternative of `%d`: `[1-9]`. -/
def dayOK1 (v : Nat) : Bool := 1 ≤ v

/-- Two-digit alternative of `%H`: values 00–23. -/
def hourOK2 (v : Nat) : Bool := v ≤ 23

/-- One-digit alternative of `%H`: any digit. -/
def hourOK1 (_ : Nat) : Bool := true

/-- Two-digit alternative of `%M` and `%S`: values 00–59. -/
def minuteOK2 (v : Nat) : Bool := v ≤ 59

/-- One-digit alternative of `%M` and `%S`: any digit. -/
def minuteOK1 (_ : Nat) : Bool := true

/-- `datetime.strptime(s, '%Y-%m-%d %H:%M')` — the canonical record format,
used by `sort_news_by_date` and by the crawlers' cutoff re-parses. -/
def parseDate (s : String) : Option Date :=
  year4 (fun y =>
    lit '-' (field2or1 monthOK2 monthOK1 (fun m =>
      lit '-' (field2or1 dayOK2 dayOK1 (fun d =>
        wsPlus (field2or1 hourOK2 hourOK1 (fun h =>
          lit ':' (field2or1 minuteOK2 minuteOK1 (fun mi => fun rest =>
            if rest = [] then mkDateChecked y m d h mi 0 else none))))))))) s.data

/-- `datetime.strptime(s, '%Y.%m.%d')` — used on `f"{now.year}.{dt_text}"` in
`get_finance_news` and on `date_text.split()[0]` in `_get_article_details`. -/
def parseYMD (s : String) : Option Date :=
  year4 (fun y =>
    lit '.' (field2or1 monthOK2 monthOK1 (fun m =>
      lit '.' (field2or1 dayOK2 dayOK1 (fun d => fun rest =>
        if rest = [] then mkDateChecked y m d 0 0 0 else none))))) s.data

/-- `datetime.strptime(s, '%Y.%m.%d %H:%M')` — the primary date format of a
Naver article detail page. -/
def parseYMDHM (s : String) : Option Date :=
  year4 (fun y =>
    lit '.' (field2or1 monthOK2 monthOK1 (fun m =>
      lit '.' (field2or1 dayOK2 dayOK1 (fun d =>
        wsPlus (field2or1 hourOK2 hourOK1 (fun h =>
          lit ':' (field2or1 minuteOK2 minuteOK1 (fun mi => fun rest =>
            if rest = [] then mkDateChecked y m d h mi 0 else none))))))))) s.data

/-- Python `str.lower` on the ASCII range. -/
def pyCharLower (c : Char) : Char :=
  if 'A' ≤ c && c ≤ 'Z' then Char.ofNat (c.toNat + 32) else c

/-- Python `str.lower` over a whole string. -/
def pyLower (s : String) : String := ⟨s.data.map pyCharLower⟩

/-- Python `str.strip()`: remove leading and trailing whitespace. -/
def pyStrip (s : String) : String :=
  ⟨((s.data.dropWhile isSpaceC).reverse.dropWhile isSpaceC).reverse⟩

/-- The deduplication key of `remove_duplicates`:
`news['title'].lower().strip()`. -/
def titleKey (n : News) : String := pyStrip (pyLower n.title)

/-- The loop of `remove_duplicates`: `seen` is the `seen_titles` set. -/
def removeDupAux (seen : List String) : List News → List News
  | [] => []
  | n :: rest =>
    if seen.contains (titleKey n) then removeDupAux seen rest
    else n :: removeDupAux (titleKey n :: seen) rest

/-- `remove_duplicates` from `src/main.py`: keep the first record for each
lower-cased, stripped title. -/
def remove_duplicates (l : List News) : List News := removeDupAux [] l

/-- Sort key of `sort_news_by_date`: the parsed timestamp of a record (the
`getD` default is irrelevant — the sorting branch is only taken when every
record's date parses). -/
def newsKey (n : News) : Nat := toSec ((parseDate n.date).getD ⟨0, 0, 0, 0, 0, 0⟩)

/-- Comparator modelling `sorted(key=..., reverse=True)`: `a` may precede `b`
iff `a`'s timestamp is at least `b`'s, so that the stable sort puts the most
recent records first while ties keep input order. -/
def newsLE (a b : News) : Bool := newsKey b ≤ newsKey a

/-- `sort_news_by_date` from `src/main.py`: if every record's date string
parses under `'%Y-%m-%d %H:%M'`, return the stable descending sort by parsed
timestamp; otherwise (`strptime` raised inside `sorted`) return the input
list unchanged. -/
def sort_news_by_date (l : List News) : List News :=
  if l.all (fun n => (parseDate n.date).isSome) then l.mergeSort newsLE else l

/-- Reference description of first-seen title deduplication: position `i` of
the input survives exactly when no earlier position carries the same
normalized title. -/
def keepFirstTitles (l : List News) : List News :=
  (List.range l.length).filterMap (fun i =>
    match l[i]? with
    | some n =>
      if (l.take i).all (fun m => titleKey m ≠ titleKey n) then some n else none
    | none => none)

/-- Month-name token of `%b` (C locale abbreviations, matched
case-insensitively as in Python's `_strptime`). -/
def monthNum (a b c : Char) : Option Nat :=
  let w := [pyCharLower a, pyCharLower b, pyCharLower c]
  if w = ['j', 'a', 'n'] then some 1
  else if w = ['f', 'e', 'b'] then some 2
  else if w = ['m', 'a', 'r'] then some 3
  else if w = ['a', 'p', 'r'] then some 4
  else if w = ['m', 'a', 'y'] then some 5
  else if w = ['j', 'u', 'n'] then some 6
  else if w = ['j', 'u', 'l'] then some 7
  else if w = ['a', 'u', 'g'] then some 8
  else if w = ['s', 'e', 'p'] then some 9
  else if w = ['o', 'c', 't'] then some 10
  else if w = ['n', 'o', 'v'] then some 11
  else if w = ['d', 'e', 'c'] then some 12
  else none

/-- `%b` parser. -/
def month3 {α : Type} (k : Nat → List Char → Option α) : List Char → Option α
  | a :: b :: c :: rest =>
    match monthNum a b c with
    | some m => k m rest
    | none => none
  | _ => none

/-- Weekday-name token of `%a` (value unused by `strptime` beyond matching). -/
def weekdayOK (a b c : Char) : Bool :=
  [pyCharLower a, pyCharLower b, pyCharLower c] ∈
    [['m', 'o', 'n'], ['t', 'u', 'e'], ['w', 'e', 'd'], ['t', 'h', 'u'],
     ['f', 'r', 'i'], ['s', 'a', 't'], ['s', 'u', 'n']]

/-- `%a` parser. -/
def weekday3 {α : Type} (k : List Char → Option α) : List Char → Option α
  | a :: b :: c :: rest => if weekdayOK a b c then k rest else none
  | _ => none

/-- `datetime.strptime(s, '%a, %d %b %Y %H:%M:%S')` — the Yahoo RSS `pubDate`
shape after the offset suffix has been removed. -/
def parseRFC822 (cs : List Char) : Option Date :=
  weekday3 (lit ',' (wsPlus (field2or1 dayOK2 dayOK1 (fun d =>
    wsPlus (month3 (fun m =>
      wsPlus (year4 (fun y =>
        wsPlus (field2or1 hourOK2 hourOK1 (fun h =>
          lit ':' (field2or1 minuteOK2 minuteOK1 (fun mi =>
            lit ':' (field2or1 minuteOK2 minuteOK1 (fun s => fun rest =>
              if rest = [] then mkDateChecked y m d h mi s else none)))))))))))))) cs

/-- The `%z` suffix of the Naver search API `pubDate` format: a sign and a
four-digit `HHMM` offset (optionally colon-separated) bounded below 24 hours,
or a literal `Z`.  The offset itself is discarded — the code immediately does
`pub_date.replace(tzinfo=None)`, keeping the wall-clock components. -/
def tzTail (y m d h mi s : Nat) : List Char → Option Date
  | c :: h1 :: h2 :: ':' :: m1 :: m2 :: [] =>
    if (c = '+' || c = '-') && h1.isDigit && h2.isDigit && m1.isDigit && m2.isDigit &&
        (digitVal h1 * 10 + digitVal h2) * 60 + digitVal m1 * 10 + digitVal m2 < 1440 then
      mkDateChecked y m d h mi s
    else none
  | c :: h1 :: h2 :: m1 :: m2 :: [] =>
    if (c = '+' || c = '-') && h1.isDigit && h2.isDigit && m1.isDigit && m2.isDigit &&
        (digitVal h1 * 10 + digitVal h2) * 60 + digitVal m1 * 10 + digitVal m2 < 1440 then
      mkDateChecked y m d h mi s
    else none
  | ['Z'] => mkDateChecked y m d h mi s
  | _ => none

/-- `datetime.strptime(s, '%a, %d %b %Y %H:%M:%S %z')` followed by
`.replace(tzinfo=None)` — the Naver search API `pubDate` handling. -/
def parseRFC822z (s : String) : Option Date :=
  weekday3 (lit ',' (wsPlus (field2or1 dayOK2 dayOK1 (fun d =>
    wsPlus (month3 (fun m =>
      wsPlus (year4 (fun y =>
        wsPlus (field2or1 hourOK2 hourOK1 (fun h =>
          lit ':' (field2or1 minuteOK2 minuteOK1 (fun mi =>
            lit ':' (field2or1 minuteOK2 minuteOK1 (fun sec =>
              wsPlus (tzTail y m d h mi sec))))))))))))))) s.data

/-- Python `s[:-6]`: drop the final six characters. -/
def pySliceDropRight6 (s : String) : String := ⟨s.data.take (s.data.length - 6)⟩

/-- Python `s.replace('GMT', '')`: remove every (left-to-right,
non-overlapping) occurrence of `GMT`. -/
def replaceGMT : List Char → List Char
  | 'G' :: 'M' :: 'T' :: rest => replaceGMT rest
  | c :: rest => c :: replaceGMT rest
  | [] => []

/-- The Yahoo crawler's publication-date normalization: first
`strptime(pub_date_str[:-6], '%a, %d %b %Y %H:%M:%S')`, then on failure
`strptime(pub_date_str.replace('GMT', '').strip(), ...)`; `none` means both
attempts raised (the caller then skips the item). -/
def parseYahooDate (s : String) : Option Date :=
  match parseRFC822 (pySliceDropRight6 s).data with
  | some d => some d
  | none => parseRFC822 (pyStrip ⟨replaceGMT s.data⟩).data

/-- The fields the Naver article-detail scraper extracts from a detail page:
the title element text, the date element text, and the cleaned content-block
text (`none` where the selector chain found nothing). -/
structure ArticlePage where
  titleTag : Option String
  dateTag : Option String
  contentText : Option String
deriving DecidableEq, Repr

/-- Python `s.split()[0]` guarded against `IndexError`: the first
whitespace-separated token, if any. -/
def firstTok (s : String) : Option String :=
  let cs := s.data.dropWhile isSpaceC
  if cs.isEmpty then none else some ⟨cs.takeWhile (fun c => !isSpaceC c)⟩

/-- The detail page's date normalization in `_get_article_details`:
try `'%Y.%m.%d %H:%M'`, then `'%Y.%m.%d'` on the first token, then fall back
to the current time; a missing date element also falls back to now. -/
def detailDateStr (now : Date) (dateTag : Option String) : String :=
  match dateTag with
  | some t =>
    match parseYMDHM t with
    | some dobj => fmtDate dobj
    | none =>
      match firstTok t with
      | some tok =>
        match parseYMD tok with
        | some dobj => fmtDate dobj
        | none => fmtDate now
      | none => fmtDate now
  | none => fmtDate now

/-- `NaverNewsCrawler._get_article_details`: `fetch` is the page-request
oracle (`none` = request/parse raised, making the method return `{}`).  On
success the record carries the fallback title, the normalized date string,
the content text (empty when no content container was found), the fixed
source label and the article url. -/
def get_article_details (fetch : String → Option ArticlePage) (now : Date)
    (url : String) : Option News :=
  match fetch url with
  | none => none
  | some pg =>
    some { date := detailDateStr now pg.dateTag
           title := pg.titleTag.getD "No Title"
           content := pg.contentText.getD ""
           source := "Naver Finance"
           url := url }

/-- One `dd.articleSubject` item of a Naver finance listing page: the `a` tag
(text and `href`, with a missing `href` attribute read as `''`) and the text
of the preceding `dt` sibling, when present. -/
structure FinItem where
  linkTag : Option (String × String)
  dtText : Option String
deriving DecidableEq, Repr

/-- The listing date normalization of `get_finance_news`: parse
`f"{now.year}.{dt_text}"` with `'%Y.%m.%d'` and format the result, falling
back to the formatted current time on failure or on a missing `dt` tag. -/
def finDateStr (now : Date) (dtText : Option String) : String :=
  match dtText with
  | some t =>
    match parseYMD (toString now.year ++ "." ++ t) with
    | some dobj => fmtDate dobj
    | none => fmtDate now
  | none => fmtDate now

/-- The cutoff test of `get_finance_news`: re-parse the normalized date
string and compare against the cutoff; a parse failure hits the
`except: pass` and the item is treated as fresh. -/
def staleCheck (cutoff : Date) (date_str : String) : Bool :=
  match parseDate date_str with
  | some ad => toSec ad < toSec cutoff
  | none => false

/-- A `get_finance_news` item that reaches the cutoff comparison (it has a
link tag with a nonempty `href`) and whose normalized date is strictly
before the cutoff, so the crawl stops on it. -/
def finEvalStale (now cutoff : Date) (it : FinItem) : Bool :=
  match it.linkTag with
  | some (_, href) => href ≠ "" && staleCheck cutoff (finDateStr now it.dtText)
  | none => false

/-- The per-item loop of `get_finance_news` over one listing page.  Items
without a link tag or with an empty `href` are skipped; a stale item makes
the whole crawl return (`true` flag); otherwise the record is appended (with
the article body fetched best-effort) and the loop continues. -/
def finProcessItems (fetch : String → Option ArticlePage) (now cutoff : Date) :
    List FinItem → List News → List News × Bool
  | [], acc => (acc, false)
  | it :: rest, acc =>
    match it.linkTag with
    | none => finProcessItems fetch now cutoff rest acc
    | some (title, href) =>
      if href = "" then finProcessItems fetch now cutoff rest acc
      else
        let article_url := "https://finance.naver.com" ++ href
        let date_str := finDateStr now it.dtText
        if staleCheck cutoff date_str then (acc, true)
        else
          let content := ((get_article_details fetch now article_url).map News.content).getD ""
          finProcessItems fetch now cutoff rest
            (acc ++ [⟨date_str, title, content, "Naver Finance", article_url⟩])

/-- The page loop of `get_finance_news`.  `fetchPage` is the listing-request
oracle (`none` = the request raised, landing in the outer `except`, which
returns the accumulated list).  The second component counts the listing-page
requests issued. -/
def finLoop (fetchPage : Nat → Option (List FinItem))
    (fetch : String → Option ArticlePage) (now cutoff : Date) :
    List Nat → List News → List News × Nat
  | [], acc => (acc, 0)
  | p :: ps, acc =>
    match fetchPage p with
    | none => (acc, 1)
    | some items =>
      match finProcessItems fetch now cutoff items acc with
      | (acc1, true) => (acc1, 1)
      | (acc1, false) =>
        let r := finLoop fetchPage fetch now cutoff ps acc1
        (r.1, r.2 + 1)

/-- `NaverNewsCrawler.get_finance_news`: crawl listing pages `1..max_pages`,
returning the collected records and the number of page requests issued. -/
def get_finance_news (fetchPage : Nat → Option (List FinItem))
    (fetch : String → Option ArticlePage) (now cutoff : Date)
    (max_pages : Nat) : List News × Nat :=
  finLoop fetchPage fetch now cutoff (List.range' 1 max_pages) []

/-- One `tr` row of a Naver stock-news table: whether it contains a `th`
(header row) and its `a.tit` tag (text and `href`), when present. -/
structure StockRow where
  hasTh : Bool
  titleTag : Option (String × String)
deriving DecidableEq, Repr

/-- The per-row loop of `get_stock_news` over one table page.  Header rows,
rows without a title tag or `href`, rows whose detail fetch wholly fails
(`{}`), and rows whose detail date does not re-parse are all skipped; a
stale row makes the whole crawl return; otherwise the detail record (with
its source overridden) is appended. -/
def stockProcessRows (fetch : String → Option ArticlePage) (now cutoff : Date)
    (stock_code : String) : List StockRow → List News → List News × Bool
  | [], acc => (acc, false)
  | row :: rest, acc =>
    if row.hasTh then stockProcessRows fetch now cutoff stock_code rest acc
    else
      match row.titleTag with
      | none => stockProcessRows fetch now cutoff stock_code rest acc
      | some (_, href) =>
        if href = "" then stockProcessRows fetch now cutoff stock_code rest acc
        else
          match get_article_details fetch now ("https://finance.naver.com" ++ href) with
          | none => stockProcessRows fetch now cutoff stock_code rest acc
          | some art =>
            let art1 := { art with source := "Naver Finance - Stock " ++ stock_code }
            match parseDate art1.date with
            | some ad =>
              if toSec ad < toSec cutoff then (acc, true)
              else stockProcessRows fetch now cutoff stock_code rest (acc ++ [art1])
            | none => stockProcessRows fetch now cutoff stock_code rest acc

/-- A `get_stock_news` row that reaches the cutoff comparison (not a header,
title tag with nonempty `href`, successful detail fetch, re-parsable date)
and whose date is strictly before the cutoff. -/
def stockEvalStale (fetch : String → Option ArticlePage) (now cutoff : Date)
    (row : StockRow) : Bool :=
  !row.hasTh &&
    match row.titleTag with
    | some (_, href) =>
      href ≠ "" &&
        match get_article_details fetch now ("https://finance.naver.com" ++ href) with
        | some art =>
          (match parseDate art.date with
           | some ad => decide (toSec ad < toSec cutoff)
           | none => false)
        | none => false
    | none => false

/-- The page loop of `get_stock_news`.  `fetchPage p = none` models the page
request raising (outer `except` returns the accumulated list);
`some none` models a page without a `type5` table (`break`);
`some (some rows)` is a fetched table.  The second component counts the
page requests issued. -/
def stockLoop (fetchPage : Nat → Option (Option (List StockRow)))
    (fetch : String → Option ArticlePage) (now cutoff : Date) (stock_code : String) :
    List Nat → List News → List News × Nat
  | [], acc => (acc, 0)
  | p :: ps, acc =>
    match fetchPage p with
    | none => (acc, 1)
    | some none => (acc, 1)
    | some (some rows) =>
      match stockProcessRows fetch now cutoff stock_code rows acc with
      | (acc1, true) => (acc1, 1)
      | (acc1, false) =>
        let r := stockLoop fetchPage fetch now cutoff stock_code ps acc1
        (r.1, r.2 + 1)

/-- `NaverNewsCrawler.get_stock_news`: crawl table pages `1..max_pages` for
one stock code, returning the records and the number of page requests. -/
def get_stock_news (fetchPage : Nat → Option (Option (List StockRow)))
    (fetch : String → Option ArticlePage) (now cutoff : Date)
    (stock_code : String) (max_pages : Nat) : List News × Nat :=
  stockLoop fetchPage fetch now cutoff stock_code (List.range' 1 max_pages) []

/-- One `item` element of a Yahoo Finance RSS feed; each field is the text of
the corresponding child element, `none` when the element is absent. -/
structure FeedItem where
  title : Option String
  link : Option String
  pubDate : Option String
  description : Option String
deriving DecidableEq, Repr

/-- The text of `YahooFinanceCrawler._get_article_content` under a bound
`logger` (the behavior its `except` handler is written to produce):
`fetchBody` is the article-request-and-extraction oracle — `none` models the
request raising (the handler would return `''`), `some` the extracted
paragraph text (`''` when no content container matched).  The method as
shipped is `get_article_content_run`: its handler evaluates the undefined
`logger`, so a raised request escapes as `NameError` instead. -/
def get_article_content (fetchBody : String → Option String) (url : String) : String :=
  (fetchBody url).getD ""

/-- One iteration of the item loop shared by `get_news_for_ticker` and
`get_market_news` (reachable only under a bound `logger`, see
`get_news_for_ticker_run`): `none` when the item is skipped (missing or
unparsable `pubDate`, or older than the cutoff), `some` the appended record.
The record's content is the fetched full body, or the feed `description`
when that body came back empty. -/
def yahooItemRec (fetchBody : String → Option String) (cutoff : Date)
    (src : String) (it : FeedItem) : Option News :=
  let title := it.title.getD "No Title"
  let link := it.link.getD ""
  let pub_date_str := it.pubDate.getD ""
  let description := it.description.getD ""
  if pub_date_str = "" then none
  else
    match parseYahooDate pub_date_str with
    | none => none
    | some pub =>
      if toSec pub < toSec cutoff then none
      else
        let full_content := get_article_content fetchBody link
        let full_content1 := if full_content = "" then description else full_content
        some ⟨fmtDate pub, title, full_content1, src, link⟩

/-- The feed loop of `YahooFinanceCrawler.get_news_for_ticker` under a bound
`logger` — the behavior the method's docstring promises: `feed` is the
RSS-request oracle (`none` = the primary listing request raised; the outer
`except` handler is written to return `[]`).  The method as shipped never
reaches this loop: see `get_news_for_ticker_run`. -/
def get_news_for_ticker (feed : Option (List FeedItem))
    (fetchBody : String → Option String) (cutoff : Date) (ticker : String) : List News :=
  match feed with
  | none => []
  | some items => items.filterMap (yahooItemRec fetchBody cutoff ("Yahoo Finance - " ++ ticker))

/-- The feed loop of `YahooFinanceCrawler.get_market_news` under a bound
`logger`: textually the same loop as `get_news_for_ticker` with the fixed
market feed and source label.  The method as shipped never reaches it: see
`get_market_news_run`. -/
def get_market_news (feed : Option (List FeedItem))
    (fetchBody : String → Option String) (cutoff : Date) : List News :=
  match feed with
  | none => []
  | some items => items.filterMap (yahooItemRec fetchBody cutoff "Yahoo Finance - Market")

/-- Whether `yahoo_finance.py` binds the module-global name `logger`.  The
module uses `logger` in every method (lines 42, 95, 98, 102, 145, 159, 207,
210, 214) but never imports `logging` nor assigns `logger` (unlike
`naver_news.py`, which does both), so each of those uses raises `NameError`
when evaluated. -/
def yahooLoggerDefined : Bool := false

/-- `YahooFinanceCrawler._get_article_content` as shipped: a successful
article request returns the extracted text (possibly `''`); on a raised
request the `except` handler itself evaluates the undefined `logger`
(line 145), so a `NameError` escapes the method instead of `''` being
returned. -/
def get_article_content_run (fetchBody : String → Option String) (url : String) :
    Except Unit String :=
  match fetchBody url with
  | some c => Except.ok c
  | none => if yahooLoggerDefined then Except.ok "" else Except.error ()

/-- `YahooFinanceCrawler.get_news_for_ticker` as shipped: the first statement
of its `try` block (line 42) evaluates the undefined `logger` and raises
`NameError` before the primary feed request is ever issued; the outer
`except` handler (line 102) evaluates `logger` again, so the `NameError`
escapes to the caller.  The method therefore raises on every call and never
returns a list; only under a bound `logger` would it run its feed loop. -/
def get_news_for_ticker_run (feed : Option (List FeedItem))
    (fetchBody : String → Option String) (cutoff : Date) (ticker : String) :
    Except Unit (List News) :=
  if yahooLoggerDefined then
    Except.ok (get_news_for_ticker feed fetchBody cutoff ticker)
  else Except.error ()

/-- `YahooFinanceCrawler.get_market_news` as shipped: raises `NameError` on
every call, exactly like `get_news_for_ticker_run` (the `logger` uses at
lines 159 and 214). -/
def get_market_news_run (feed : Option (List FeedItem))
    (fetchBody : String → Option String) (cutoff : Date) : Except Unit (List News) :=
  if yahooLoggerDefined then
    Except.ok (get_market_news feed fetchBody cutoff)
  else Except.error ()

/-- One element of the Naver search API `items` array; each field is read
with `item.get(key, '')` so absence becomes `''`. -/
structure ApiItem where
  title : Option String
  description : Option String
  link : Option String
  pubDate : Option String
deriving DecidableEq, Repr

/-- `re.sub(r'<[^>]+>', '', s)` on the character list: a `<`, at least one
character other than `>`, and the first following `>` are removed; a `<`
with no closing `>` (or immediately followed by `>`) is kept. -/
def stripTagsAux : List Char → List Char
  | [] => []
  | c :: rest =>
    if c = '<' then
      match hdrop : rest.dropWhile (fun x => x ≠ '>') with
      | '>' :: tail =>
        if (rest.takeWhile (fun x => x ≠ '>')).isEmpty then c :: stripTagsAux rest
        else stripTagsAux tail
      | _ => c :: stripTagsAux rest
    else c :: stripTagsAux rest
termination_by cs => cs.length
decreasing_by
  · simp
  · have h1 : ('>' :: tail).length ≤ rest.length :=
      hdrop ▸ (List.dropWhile_sublist (fun x => x ≠ '>')).length_le
    simp at h1 ⊢
    omega
  · simp
  · simp

/-- HTML-tag stripping applied to API titles and descriptions. -/
def stripTags (s : String) : String := ⟨stripTagsAux s.data⟩

/-- One iteration of the `search_news_api` item loop: skip items without a
`pubDate`, with an unparsable `pubDate` (the `strptime` error lands in the
per-item `except ... continue`), or older than the cutoff; otherwise emit
the record with tag-stripped title and description. -/
def apiItemRec (query : String) (cutoff : Date) (it : ApiItem) : Option News :=
  let pub_date_str := it.pubDate.getD ""
  if pub_date_str = "" then none
  else
    match parseRFC822z pub_date_str with
    | none => none
    | some pub =>
      if toSec pub < toSec cutoff then none
      else
        some ⟨fmtDate pub, stripTags (it.title.getD ""), stripTags (it.description.getD ""),
              "Naver News API - " ++ query, it.link.getD ""⟩

/-- `NaverNewsCrawler.search_news_api`: returns `[]` without any request when
credentials are missing; `resp` is the API-request oracle (`none` = the
request or JSON decoding raised, the outer `except` returns `[]`). -/
def search_news_api (credentials_ok : Bool) (resp : Option (List ApiItem))
    (query : String) (cutoff : Date) : List News :=
  if !credentials_ok then []
  else
    match resp with
    | none => []
    | some items => items.filterMap (apiItemRec query cutoff)

/-- The `all_news` list of `main()`: each collector's contribution, with a
collector that raised (`none`) contributing nothing (its `except` only
logs). -/
def mainCollect (yahoo naver : Option (List News)) : List News :=
  yahoo.getD [] ++ naver.getD []

/-- The tail of `main()` after collection: with no records at all it returns
before producing any artifact (`none`); otherwise it deduplicates, sorts and
hands the result to `save_news_to_file` (`some`). -/
def mainResult (yahoo naver : Option (List News)) : Option (List News) :=
  let all_news := mainCollect yahoo naver
  if all_news.isEmpty then none
  else some (sort_news_by_date (remove_duplicates all_news))

/-- Positional description of `removeDupAux`: the record at index `i`
survives when its key is neither in `seen` nor among the keys of earlier
positions. -/

def specAt (seen : List String) (l : List News) (i : Nat) : Option News :=
  match l[i]? with
  | some n =>
    if !seen.contains (titleKey n) && (l.take i).all (fun m => !(titleKey m == titleKey n))
    then some n else none
  | none => none

theorem removeDupAux_cons (seen : List String) (n : News) (rest : List News) :
    removeDupAux seen (n :: rest) =
      if seen.contains (titleKey n) then removeDupAux seen rest
      else n :: removeDupAux (titleKey n :: seen) rest := rfl

theorem specAt_some (seen : List String) (l : List News) (i : Nat) (m : News)
    (h : l[i]? = some m) :
    specAt seen l i =
      if !seen.contains (titleKey m) && (l.take i).all (fun x => !(titleKey x == titleKey m))
      then some m else none := by
  unfold specAt
  rw [h]

theorem specAt_none (seen : List String) (l : List News) (i : Nat)
    (h : l[i]? = none) : specAt seen l i = none := by
  unfold specAt
  rw [h]

theorem beq_str_comm (a b : String) : (a == b) = (b == a) := by
  cases hb : a == b <;> cases hb2 : b == a <;> simp_all

theorem specAt_zero_cons (seen : List String) (n : News) (rest : List News) :
    specAt seen (n :: rest) 0 = if !seen.contains (titleKey n) then some n else none := by
  rw [specAt_some seen (n :: rest) 0 n (by rw [List.getElem?_cons_zero])]
  simp

theorem specAt_succ_cons (seen : List String) (n : News) (rest : List News) (i : Nat) :
    specAt seen (n :: rest) (i + 1) = specAt (titleKey n :: seen) rest i := by
  cases h : rest[i]? with
  | none =>
    rw [specAt_none seen (n :: rest) (i + 1) (by rw [List.getElem?_cons_succ]; exact h),
      specAt_none (titleKey n :: seen) rest i h]
  | some m =>
    rw [specAt_some seen (n :: rest) (i + 1) m (by rw [List.getElem?_cons_succ]; exact h),
      specAt_some (titleKey n :: seen) rest i m h]
    have hcond : (!seen.contains (titleKey m) &&
          ((n :: rest).take (i + 1)).all (fun x => !(titleKey x == titleKey m)))
        = (!(titleKey n :: seen).contains (titleKey m) &&
          (rest.take i).all (fun x => !(titleKey x == titleKey m))) := by
      rw [List.take_succ_cons, List.all_cons, List.contains_cons,
        beq_str_comm (titleKey m) (titleKey n)]
      cases titleKey n == titleKey m <;> cases seen.contains (titleKey m) <;> simp
    rw [hcond]

theorem specAt_absorb (s : String) (seen : List String) (l : List News) (i : Nat)
    (hs : seen.contains s = true) : specAt (s :: seen) l i = specAt seen l i := by
  cases h : l[i]? with
  | none => rw [specAt_none _ _ _ h, specAt_none _ _ _ h]
  | some m =>
    rw [specAt_some _ _ _ _ h, specAt_some _ _ _ _ h, List.contains_cons]
    cases hb : titleKey m == s
    · rw [Bool.false_or]
    · rw [beq_iff_eq] at hb
      rw [hb, hs]
      simp

theorem removeDupAux_eq_spec (l : List News) : ∀ (seen : List String),
    removeDupAux seen l = (List.range l.length).filterMap (specAt seen l) := by
  induction l with
  | nil => intro seen; simp [removeDupAux]
  | cons n rest ih =>
    intro seen
    rw [List.length_cons, List.range_succ_eq_map, List.filterMap_cons, List.filterMap_map,
      show (specAt seen (n :: rest)) ∘ Nat.succ = specAt (titleKey n :: seen) rest from
        funext fun i => specAt_succ_cons seen n rest i,
      specAt_zero_cons, removeDupAux_cons]
    cases hc : seen.contains (titleKey n)
    · rw [Bool.not_false, if_neg (show ¬(false = true) by decide),
        if_pos (show true = true from rfl), ih (titleKey n :: seen)]
    · rw [Bool.not_true, if_pos (show true = true from rfl),
        if_neg (show ¬(false = true) by decide), ih seen,
        List.filterMap_congr (fun i _ => specAt_absorb (titleKey n) seen rest i hc)]

/-- Claim C1 (draft). -/
theorem mem_removeDupAux_not_seen (l : List News) : ∀ (seen : List String) (r : News),
    r ∈ removeDupAux seen l → seen.contains (titleKey r) = false := by
  induction l with
  | nil => intro seen r hr; simp [removeDupAux] at hr
  | cons n rest ih =>
    intro seen r hr
    rw [removeDupAux_cons] at hr
    cases hc : seen.contains (titleKey n)
    · rw [hc, if_neg (by decide)] at hr
      rcases List.mem_cons.mp hr with h | h
      · rw [h]; exact hc
      · have h2 := ih (titleKey n :: seen) r h
        rw [List.contains_cons] at h2
        exact (Bool.or_eq_false_iff.mp h2).2
    · rw [hc, if_pos rfl] at hr
      exact ih seen r hr

theorem pairwise_removeDupAux (l : List News) : ∀ (seen : List String),
    (removeDupAux seen l).Pairwise (fun a b => titleKey a ≠ titleKey b) := by
  induction l with
  | nil => intro seen; simp [removeDupAux]
  | cons n rest ih =>
    intro seen
    rw [removeDupAux_cons]
    cases hc : seen.contains (titleKey n)
    · rw [if_neg (by decide)]
      refine List.Pairwise.cons ?_ (ih (titleKey n :: seen))
      intro b hb hkey
      have h2 := mem_removeDupAux_not_seen rest (titleKey n :: seen) b hb
      rw [List.contains_cons] at h2
      have := (Bool.or_eq_false_iff.mp h2).1
      rw [beq_eq_false_iff_ne] at this
      exact this hkey.symm
    · rw [if_pos rfl]
      exact ih seen

theorem removeDupAux_eq_self (l : List News) :
    ∀ (seen : List String), l.Pairwise (fun a b => titleKey a ≠ titleKey b) →
    (∀ r ∈ l, seen.contains (titleKey r) = false) → removeDupAux seen l = l := by
  induction l with
  | nil => intro seen _ _; rfl
  | cons n rest ih =>
    intro seen hp hs
    rw [removeDupAux_cons, hs n (List.mem_cons_self n rest), if_neg (by decide)]
    rw [ih (titleKey n :: seen) (List.Pairwise.of_cons hp)]
    intro r hr
    rw [List.contains_cons, Bool.or_eq_false_iff]
    constructor
    · rw [beq_eq_false_iff_ne]
      exact fun he => (List.pairwise_cons.mp hp).1 r hr he.symm
    · exact hs r (List.mem_cons_of_mem n hr)

/-- Claim C10 (draft). -/
theorem field2or1_some {α : Type} {ok2 ok1 : Nat → Bool} {k : Nat → List Char → Option α}
    {cs : List Char} {x : α} (h : field2or1 ok2 ok1 k cs = some x) :
    ∃ v cs2, k v cs2 = some x := by
  cases cs with
  | nil => exact absurd h (by simp [field2or1])
  | cons c1 cs1 =>
    cases cs1 with
    | nil =>
      rw [field2or1] at h
      split at h
      · exact ⟨_, _, h⟩
      · exact absurd h (by simp)
    | cons c2 rest =>
      rw [field2or1] at h
      split at h
      · split at h
        next x1 heq => exact ⟨_, _, heq.trans h⟩
        next heq =>
          split at h
          · exact ⟨_, _, h⟩
          · exact absurd h (by simp)
      · split at h
        · exact ⟨_, _, h⟩
        · exact absurd h (by simp)

theorem lit_some {α : Type} {c : Char} {k : List Char → Option α} {cs : List Char} {x : α}
    (h : lit c k cs = some x) : ∃ cs2, k cs2 = some x := by
  cases cs with
  | nil => exact absurd h (by simp [lit])
  | cons c1 rest =>
    rw [lit] at h
    split at h
    · exact ⟨_, h⟩
    · exact absurd h (by simp)

theorem wsPlus_some {α : Type} {k : List Char → Option α} {cs : List Char} {x : α}
    (h : wsPlus k cs = some x) : ∃ cs2, k cs2 = some x := by
  cases cs with
  | nil => exact absurd h (by simp [wsPlus])
  | cons c1 rest =>
    rw [wsPlus] at h
    split at h
    · exact ⟨_, h⟩
    · exact absurd h (by simp)

theorem year4_some {α : Type} {k : Nat → List Char → Option α} {cs : List Char} {x : α}
    (h : year4 k cs = some x) : ∃ v cs2, k v cs2 = some x := by
  cases cs with
  | nil => exact absurd h (by simp [year4])
  | cons a cs1 =>
    cases cs1 with
    | nil => exact absurd h (by simp [year4])
    | cons b cs2 =>
      cases cs2 with
      | nil => exact absurd h (by simp [year4])
      | cons c cs3 =>
        cases cs3 with
        | nil => exact absurd h (by simp [year4])
        | cons d rest =>
          rw [year4] at h
          split at h
          · exact ⟨_, _, h⟩
          · exact absurd h (by simp)

theorem month3_some {α : Type} {k : Nat → List Char → Option α} {cs : List Char} {x : α}
    (h : month3 k cs = some x) : ∃ v cs2, k v cs2 = some x := by
  cases cs with
  | nil => exact absurd h (by simp [month3])
  | cons a cs1 =>
    cases cs1 with
    | nil => exact absurd h (by simp [month3])
    | cons b cs2 =>
      cases cs2 with
      | nil => exact absurd h (by simp [month3])
      | cons c rest =>
        rw [month3] at h
        split at h
        next m heq => exact ⟨_, _, h⟩
        next heq => exact absurd h (by simp)

theorem weekday3_some {α : Type} {k : List Char → Option α} {cs : List Char} {x : α}
    (h : weekday3 k cs = some x) : ∃ cs2, k cs2 = some x := by
  cases cs with
  | nil => exact absurd h (by simp [weekday3])
  | cons a cs1 =>
    cases cs1 with
    | nil => exact absurd h (by simp [weekday3])
    | cons b cs2 =>
      cases cs2 with
      | nil => exact absurd h (by simp [weekday3])
      | cons c rest =>
        rw [weekday3] at h
        split at h
        · exact ⟨_, h⟩
        · exact absurd h (by simp)

theorem tzTail_some {y m d hr mi s : Nat} {cs : List Char} {x : Date}
    (ht : tzTail y m d hr mi s cs = some x) : mkDateChecked y m d hr mi s = some x := by
  unfold tzTail at ht
  split at ht
  · split at ht
    · exact ht
    · exact absurd ht (by simp)
  · split at ht
    · exact ht
    · exact absurd ht (by simp)
  · exact ht
  · exact absurd ht (by simp)

theorem mkDateChecked_valid {y m d h mi s : Nat} {dd : Date}
    (hmk : mkDateChecked y m d h mi s = some dd) : validDate dd = true := by
  rw [mkDateChecked] at hmk
  split at hmk
  next hok =>
    cases hmk
    exact hok
  next => exact absurd hmk (by simp)

theorem parseDate_valid {s : String} {dd : Date} (h : parseDate s = some dd) :
    validDate dd = true := by
  unfold parseDate at h
  obtain ⟨y, cs1, h⟩ := year4_some h
  obtain ⟨cs2, h⟩ := lit_some h
  obtain ⟨m, cs3, h⟩ := field2or1_some h
  obtain ⟨cs4, h⟩ := lit_some h
  obtain ⟨d, cs5, h⟩ := field2or1_some h
  obtain ⟨cs6, h⟩ := wsPlus_some h
  obtain ⟨hr, cs7, h⟩ := field2or1_some h
  obtain ⟨cs8, h⟩ := lit_some h
  obtain ⟨mi, cs9, h⟩ := field2or1_some h
  split at h
  · exact mkDateChecked_valid h
  · exact absurd h (by simp)

theorem parseYMD_valid {s : String} {dd : Date} (h : parseYMD s = some dd) :
    validDate dd = true := by
  unfold parseYMD at h
  obtain ⟨y, cs1, h⟩ := year4_some h
  obtain ⟨cs2, h⟩ := lit_some h
  obtain ⟨m, cs3, h⟩ := field2or1_some h
  obtain ⟨cs4, h⟩ := lit_some h
  obtain ⟨d, cs5, h⟩ := field2or1_some h
  split at h
  · exact mkDateChecked_valid h
  · exact absurd h (by simp)

theorem parseYMDHM_valid {s : String} {dd : Date} (h : parseYMDHM s = some dd) :
    validDate dd = true := by
  unfold parseYMDHM at h
  obtain ⟨y, cs1, h⟩ := year4_some h
  obtain ⟨cs2, h⟩ := lit_some h
  obtain ⟨m, cs3, h⟩ := field2or1_some h
  obtain ⟨cs4, h⟩ := lit_some h
  obtain ⟨d, cs5, h⟩ := field2or1_some h
  obtain ⟨cs6, h⟩ := wsPlus_some h
  obtain ⟨hr, cs7, h⟩ := field2or1_some h
  obtain ⟨cs8, h⟩ := lit_some h
  obtain ⟨mi, cs9, h⟩ := field2or1_some h
  split at h
  · exact mkDateChecked_valid h
  · exact absurd h (by simp)

theorem parseRFC822_valid {cs : List Char} {dd : Date} (h : parseRFC822 cs = some dd) :
    validDate dd = true := by
  unfold parseRFC822 at h
  obtain ⟨cs1, h⟩ := weekday3_some h
  obtain ⟨cs2, h⟩ := lit_some h
  obtain ⟨cs3, h⟩ := wsPlus_some h
  obtain ⟨d, cs4, h⟩ := field2or1_some h
  obtain ⟨cs5, h⟩ := wsPlus_some h
  obtain ⟨m, cs6, h⟩ := month3_some h
  obtain ⟨cs7, h⟩ := wsPlus_some h
  obtain ⟨y, cs8, h⟩ := year4_some h
  obtain ⟨cs9, h⟩ := wsPlus_some h
  obtain ⟨hr, cs10, h⟩ := field2or1_some h
  obtain ⟨cs11, h⟩ := lit_some h
  obtain ⟨mi, cs12, h⟩ := field2or1_some h
  obtain ⟨cs13, h⟩ := lit_some h
  obtain ⟨sec, cs14, h⟩ := field2or1_some h
  split at h
  · exact mkDateChecked_valid h
  · exact absurd h (by simp)

theorem parseRFC822z_valid {s : String} {dd : Date} (h : parseRFC822z s = some dd) :
    validDate dd = true := by
  unfold parseRFC822z at h
  obtain ⟨cs1, h⟩ := weekday3_some h
  obtain ⟨cs2, h⟩ := lit_some h
  obtain ⟨cs3, h⟩ := wsPlus_some h
  obtain ⟨d, cs4, h⟩ := field2or1_some h
  obtain ⟨cs5, h⟩ := wsPlus_some h
  obtain ⟨m, cs6, h⟩ := month3_some h
  obtain ⟨cs7, h⟩ := wsPlus_some h
  obtain ⟨y, cs8, h⟩ := year4_some h
  obtain ⟨cs9, h⟩ := wsPlus_some h
  obtain ⟨hr, cs10, h⟩ := field2or1_some h
  obtain ⟨cs11, h⟩ := lit_some h
  obtain ⟨mi, cs12, h⟩ := field2or1_some h
  obtain ⟨cs13, h⟩ := lit_some h
  obtain ⟨sec, cs14, h⟩ := field2or1_some h
  obtain ⟨cs15, h⟩ := wsPlus_some h
  exact mkDateChecked_valid (tzTail_some h)

theorem parseYahooDate_valid {s : String} {dd : Date} (h : parseYahooDate s = some dd) :
    validDate dd = true := by
  unfold parseYahooDate at h
  split at h
  next heq =>
    cases h
    exact parseRFC822_valid heq
  next => exact parseRFC822_valid h

theorem digitChar_isDigit {k : Nat} (hk : k < 10) : (digitChar k).isDigit = true := by
  interval_cases k <;> decide

theorem digitVal_digitChar {k : Nat} (hk : k < 10) : digitVal (digitChar k) = k := by
  interval_cases k <;> decide

theorem digitChar_not_space {k : Nat} (hk : k < 10) : isSpaceC (digitChar k) = false := by
  interval_cases k <;> decide

theorem year4_digits {α : Type} (y : Nat) (hy : y ≤ 9999) (k : Nat → List Char → Option α)
    (rest : List Char) :
    year4 k (digitChar (y / 1000 % 10) :: digitChar (y / 100 % 10) ::
      digitChar (y / 10 % 10) :: digitChar (y % 10) :: rest) = k y rest := by
  rw [year4, digitChar_isDigit (Nat.mod_lt _ (by omega)),
    digitChar_isDigit (Nat.mod_lt _ (by omega)), digitChar_isDigit (Nat.mod_lt _ (by omega)),
    digitChar_isDigit (Nat.mod_lt _ (by omega))]
  simp only [Bool.and_self, if_true]
  rw [digitVal_digitChar (Nat.mod_lt _ (by omega)), digitVal_digitChar (Nat.mod_lt _ (by omega)),
    digitVal_digitChar (Nat.mod_lt _ (by omega)), digitVal_digitChar (Nat.mod_lt _ (by omega))]
  have hval : ((y / 1000 % 10 * 10 + y / 100 % 10) * 10 + y / 10 % 10) * 10 + y % 10 = y := by
    omega
  rw [hval]

theorem lit_cons {α : Type} (c : Char) (k : List Char → Option α) (rest : List Char) :
    lit c k (c :: rest) = k rest := by
  rw [lit, if_pos rfl]

theorem wsPlus_single {α : Type} (k : List Char → Option α) (c : Char) (rest : List Char)
    (hc : isSpaceC c = false) : wsPlus k (' ' :: c :: rest) = k (c :: rest) := by
  rw [wsPlus, if_pos (by decide), List.dropWhile_cons_of_neg (by rw [hc]; decide)]

theorem field2or1_digits {α : Type} (ok2 ok1 : Nat → Bool) (v : Nat) (hv : v ≤ 99)
    (hok2 : ok2 v = true) (k : Nat → List Char → Option α) (rest : List Char) (x : α)
    (hk : k v rest = some x) :
    field2or1 ok2 ok1 k (digitChar (v / 10 % 10) :: digitChar (v % 10) :: rest) = some x := by
  have hval : digitVal (digitChar (v / 10 % 10)) * 10 + digitVal (digitChar (v % 10)) = v := by
    rw [digitVal_digitChar (Nat.mod_lt _ (by omega)), digitVal_digitChar (Nat.mod_lt _ (by omega))]
    omega
  rw [field2or1, hval, digitChar_isDigit (Nat.mod_lt _ (by omega)),
    digitChar_isDigit (Nat.mod_lt _ (by omega)), hok2]
  simp only [Bool.and_self, Bool.true_and, if_true]
  rw [hk]

theorem daysInMonth_le_31 (y m : Nat) : daysInMonth y m ≤ 31 := by
  unfold daysInMonth
  split
  · omega
  · split
    · omega
    · split <;> omega

theorem dateOK_iff {y m d h mi s : Nat} :
    dateOK y m d h mi s = true ↔
      1 ≤ y ∧ y ≤ 9999 ∧ 1 ≤ m ∧ m ≤ 12 ∧ 1 ≤ d ∧ d ≤ daysInMonth y m ∧
        h ≤ 23 ∧ mi ≤ 59 ∧ s ≤ 59 := by
  simp [dateOK, and_assoc]

/-- A `strftime('%Y-%m-%d %H:%M')` output re-parses under the same format to
the same date with the seconds dropped. -/
theorem parseDate_fmtDate (d : Date) (hd : validDate d = true) :
    parseDate (fmtDate d) = some ⟨d.year, d.month, d.day, d.hour, d.minute, 0⟩ := by
  obtain ⟨hy1, hy2, hm1, hm2, hd1, hd2, hh, hmi, hs⟩ := dateOK_iff.mp hd
  have hok : dateOK d.year d.month d.day d.hour d.minute 0 = true :=
    dateOK_iff.mpr ⟨hy1, hy2, hm1, hm2, hd1, hd2, hh, hmi, by omega⟩
  rw [parseDate]
  show year4 _ (digitChar (d.year / 1000 % 10) :: digitChar (d.year / 100 % 10) ::
      digitChar (d.year / 10 % 10) :: digitChar (d.year % 10) :: '-' ::
      digitChar (d.month / 10 % 10) :: digitChar (d.month % 10) :: '-' ::
      digitChar (d.day / 10 % 10) :: digitChar (d.day % 10) :: ' ' ::
      digitChar (d.hour / 10 % 10) :: digitChar (d.hour % 10) :: ':' ::
      digitChar (d.minute / 10 % 10) :: digitChar (d.minute % 10) :: []) = _
  rw [year4_digits d.year hy2, lit_cons]
  exact field2or1_digits _ _ d.month (by omega) (by simp [monthOK2]; omega) _ _ _
    (by
      rw [lit_cons]
      exact field2or1_digits _ _ d.day (by have := daysInMonth_le_31 d.year d.month; omega)
        (by have := daysInMonth_le_31 d.year d.month; simp [dayOK2]; omega) _ _ _
        (by
          rw [wsPlus_single _ _ _ (digitChar_not_space (Nat.mod_lt _ (by omega)))]
          exact field2or1_digits _ _ d.hour (by omega) (by simp [hourOK2]; omega) _ _ _
            (by
              rw [lit_cons]
              exact field2or1_digits _ _ d.minute (by omega) (by simp [minuteOK2]; omega) _ _ _
                (by
                  rw [if_pos rfl, mkDateChecked, if_pos hok]))))

theorem finProcessItems_cons (fetch : String → Option ArticlePage) (now cutoff : Date)
    (it : FinItem) (rest : List FinItem) (acc : List News) :
    finProcessItems fetch now cutoff (it :: rest) acc =
      match it.linkTag with
      | none => finProcessItems fetch now cutoff rest acc
      | some (title, href) =>
        if href = "" then finProcessItems fetch now cutoff rest acc
        else
          if staleCheck cutoff (finDateStr now it.dtText) then (acc, true)
          else
            finProcessItems fetch now cutoff rest
              (acc ++ [⟨finDateStr now it.dtText, title,
                ((get_article_details fetch now
                  ("https://finance.naver.com" ++ href)).map News.content).getD "",
                "Naver Finance", "https://finance.naver.com" ++ href⟩]) := rfl

theorem finStep (fetch : String → Option ArticlePage) (now cutoff : Date) (it : FinItem) :
    (∀ rest acc, finProcessItems fetch now cutoff (it :: rest) acc = (acc, true)) ∨
    (∃ g : List News → List News, ∀ rest acc,
      finProcessItems fetch now cutoff (it :: rest) acc
        = finProcessItems fetch now cutoff rest (g acc)) := by
  cases hlt : it.linkTag with
  | none =>
    right
    refine ⟨id, fun rest acc => ?_⟩
    rw [finProcessItems_cons, hlt]
    rfl
  | some tp =>
    obtain ⟨title, href⟩ := tp
    by_cases hh : href = ""
    · right
      refine ⟨id, fun rest acc => ?_⟩
      rw [finProcessItems_cons, hlt]
      simp only
      rw [if_pos hh]
      rfl
    · by_cases hs : staleCheck cutoff (finDateStr now it.dtText) = true
      · left
        intro rest acc
        rw [finProcessItems_cons, hlt]
        simp only
        rw [if_neg hh, if_pos hs]
      · right
        refine ⟨fun acc => acc ++ [⟨finDateStr now it.dtText, title,
          ((get_article_details fetch now
            ("https://finance.naver.com" ++ href)).map News.content).getD "",
          "Naver Finance", "https://finance.naver.com" ++ href⟩], fun rest acc => ?_⟩
        rw [finProcessItems_cons, hlt]
        simp only
        rw [if_neg hh, if_neg hs]

theorem finProcessItems_stale (fetch : String → Option ArticlePage) (now cutoff : Date) :
    ∀ (items : List FinItem) (k : Nat) (it : FinItem) (acc : List News),
      items[k]? = some it → finEvalStale now cutoff it = true →
      (finProcessItems fetch now cutoff items acc).2 = true ∧
      finProcessItems fetch now cutoff items acc
        = finProcessItems fetch now cutoff (items.take (k + 1)) acc := by
  intro items
  induction items with
  | nil => intro k it acc hk; simp at hk
  | cons it0 rest ih =>
    intro k it acc hk hstale
    cases k with
    | zero =>
      rw [List.getElem?_cons_zero] at hk
      injection hk with hk
      subst hk
      unfold finEvalStale at hstale
      cases hlt : it0.linkTag with
      | none => rw [hlt] at hstale; simp at hstale
      | some tp =>
        obtain ⟨title, href⟩ := tp
        rw [hlt] at hstale
        simp only [Bool.and_eq_true, decide_eq_true_eq] at hstale
        obtain ⟨hh, hs⟩ := hstale
        have hred : finProcessItems fetch now cutoff (it0 :: rest) acc = (acc, true) := by
          rw [finProcessItems_cons, hlt]
          simp only
          rw [if_neg hh, if_pos hs]
        have hred2 : finProcessItems fetch now cutoff ((it0 :: rest).take (0 + 1)) acc
            = (acc, true) := by
          rw [List.take_succ_cons, List.take_zero, finProcessItems_cons, hlt]
          simp only
          rw [if_neg hh, if_pos hs]
        rw [hred, hred2]
        exact ⟨rfl, rfl⟩
    | succ k =>
      rw [List.getElem?_cons_succ] at hk
      rcases finStep fetch now cutoff it0 with hstop | ⟨g, hg⟩
      · rw [List.take_succ_cons, hstop rest acc, hstop (rest.take (k + 1)) acc]
        exact ⟨rfl, rfl⟩
      · rw [List.take_succ_cons, hg rest acc, hg (rest.take (k + 1)) acc]
        exact ih k it (g acc) hk hstale

theorem finLoop_cons (f : Nat → Option (List FinItem)) (fetch : String → Option ArticlePage)
    (now cutoff : Date) (p : Nat) (ps : List Nat) (acc : List News) :
    finLoop f fetch now cutoff (p :: ps) acc =
      match f p with
      | none => (acc, 1)
      | some its =>
        match finProcessItems fetch now cutoff its acc with
        | (acc1, true) => (acc1, 1)
        | (acc1, false) =>
          ((finLoop f fetch now cutoff ps acc1).1,
            (finLoop f fetch now cutoff ps acc1).2 + 1) := rfl

theorem finLoop_stale (f g : Nat → Option (List FinItem)) (fetch : String → Option ArticlePage)
    (now cutoff : Date) (p : Nat) (items : List FinItem) (k : Nat) (it : FinItem)
    (hf : f p = some items) (hk : items[k]? = some it)
    (hstale : finEvalStale now cutoff it = true)
    (hagree : ∀ q, q < p → g q = f q) (hgp : g p = some (items.take (k + 1))) :
    ∀ (len s : Nat) (acc : List News), s ≤ p → p < s + len →
      (finLoop f fetch now cutoff (List.range' s len) acc).2 ≤ p + 1 - s ∧
      finLoop g fetch now cutoff (List.range' s len) acc
        = finLoop f fetch now cutoff (List.range' s len) acc := by
  intro len
  induction len with
  | zero => intro s acc h1 h2; omega
  | succ n ih =>
    intro s acc hsp hps
    rw [List.range'_succ]
    by_cases hsp2 : s = p
    · subst hsp2
      obtain ⟨hflag, heq⟩ := finProcessItems_stale fetch now cutoff items k it acc hk hstale
      rw [finLoop_cons, finLoop_cons, hf, hgp]
      dsimp only
      rcases he : finProcessItems fetch now cutoff items acc with ⟨acc1, flag⟩
      rw [he] at hflag heq
      simp only at hflag
      subst hflag
      rw [← heq]
      dsimp only
      exact ⟨by omega, rfl⟩
    · have hsp3 : s < p := lt_of_le_of_ne hsp hsp2
      rw [finLoop_cons, finLoop_cons, hagree s hsp3]
      cases hfs : f s with
      | none => dsimp only; exact ⟨by omega, rfl⟩
      | some items0 =>
        dsimp only
        rcases he : finProcessItems fetch now cutoff items0 acc with ⟨acc1, flag⟩
        cases flag with
        | true => dsimp only; exact ⟨by omega, rfl⟩
        | false =>
          obtain ⟨hcount, heq2⟩ := ih (s + 1) acc1 (by omega) (by omega)
          dsimp only
          refine ⟨by omega, by rw [heq2]⟩

theorem stockProcessRows_cons (fetch : String → Option ArticlePage) (now cutoff : Date)
    (code : String) (row : StockRow) (rest : List StockRow) (acc : List News) :
    stockProcessRows fetch now cutoff code (row :: rest) acc =
      if row.hasTh then stockProcessRows fetch now cutoff code rest acc
      else
        match row.titleTag with
        | none => stockProcessRows fetch now cutoff code rest acc
        | some (_, href) =>
          if href = "" then stockProcessRows fetch now cutoff code rest acc
          else
            match get_article_details fetch now ("https://finance.naver.com" ++ href) with
            | none => stockProcessRows fetch now cutoff code rest acc
            | some art =>
              match parseDate ({ art with source := "Naver Finance - Stock " ++ code } : News).date with
              | some ad =>
                if toSec ad < toSec cutoff then (acc, true)
                else stockProcessRows fetch now cutoff code rest
                  (acc ++ [{ art with source := "Naver Finance - Stock " ++ code }])
              | none => stockProcessRows fetch now cutoff code rest acc := rfl

theorem stockStep (fetch : String → Option ArticlePage) (now cutoff : Date) (code : String)
    (row : StockRow) :
    (∀ rest acc, stockProcessRows fetch now cutoff code (row :: rest) acc = (acc, true)) ∨
    (∃ g : List News → List News, ∀ rest acc,
      stockProcessRows fetch now cutoff code (row :: rest) acc
        = stockProcessRows fetch now cutoff code rest (g acc)) := by
  by_cases hth : row.hasTh = true
  · right
    refine ⟨id, fun rest acc => ?_⟩
    rw [stockProcessRows_cons, if_pos hth]
    rfl
  · rw [Bool.not_eq_true] at hth
    cases htt : row.titleTag with
    | none =>
      right
      refine ⟨id, fun rest acc => ?_⟩
      rw [stockProcessRows_cons, if_neg (by rw [hth]; decide), htt]
      rfl
    | some tp =>
      obtain ⟨t, href⟩ := tp
      by_cases hh : href = ""
      · right
        refine ⟨id, fun rest acc => ?_⟩
        rw [stockProcessRows_cons, if_neg (by rw [hth]; decide), htt]
        dsimp only
        rw [if_pos hh]
        rfl
      · cases hdet : get_article_details fetch now ("https://finance.naver.com" ++ href) with
        | none =>
          right
          refine ⟨id, fun rest acc => ?_⟩
          rw [stockProcessRows_cons, if_neg (by rw [hth]; decide), htt]
          dsimp only
          rw [if_neg hh, hdet]
          rfl
        | some art =>
          cases hpd : parseDate ({ art with source := "Naver Finance - Stock " ++ code } : News).date with
          | none =>
            right
            refine ⟨id, fun rest acc => ?_⟩
            rw [stockProcessRows_cons, if_neg (by rw [hth]; decide), htt]
            dsimp only
            rw [if_neg hh, hdet]
            dsimp only
            rw [hpd]
            rfl
          | some ad =>
            by_cases hlt2 : toSec ad < toSec cutoff
            · left
              intro rest acc
              rw [stockProcessRows_cons, if_neg (by rw [hth]; decide), htt]
              dsimp only
              rw [if_neg hh, hdet]
              dsimp only
              rw [hpd]
              dsimp only
              rw [if_pos hlt2]
            · right
              refine ⟨fun acc =>
                acc ++ [{ art with source := "Naver Finance - Stock " ++ code }],
                fun rest acc => ?_⟩
              rw [stockProcessRows_cons, if_neg (by rw [hth]; decide), htt]
              dsimp only
              rw [if_neg hh, hdet]
              dsimp only
              rw [hpd]
              dsimp only
              rw [if_neg hlt2]

theorem stockProcessRows_stale (fetch : String → Option ArticlePage) (now cutoff : Date)
    (code : String) :
    ∀ (rows : List StockRow) (k : Nat) (row : StockRow) (acc : List News),
      rows[k]? = some row → stockEvalStale fetch now cutoff row = true →
      (stockProcessRows fetch now cutoff code rows acc).2 = true ∧
      stockProcessRows fetch now cutoff code rows acc
        = stockProcessRows fetch now cutoff code (rows.take (k + 1)) acc := by
  intro rows
  induction rows with
  | nil => intro k row acc hk; simp at hk
  | cons row0 rest ih =>
    intro k row acc hk hstale
    cases k with
    | zero =>
      rw [List.getElem?_cons_zero] at hk
      injection hk with hk
      subst hk
      unfold stockEvalStale at hstale
      cases hth : row0.hasTh with
      | true => rw [hth] at hstale; simp at hstale
      | false =>
        rw [hth] at hstale
        simp only [Bool.not_false, Bool.true_and] at hstale
        cases htt : row0.titleTag with
        | none => rw [htt] at hstale; simp at hstale
        | some tp =>
          obtain ⟨t, href⟩ := tp
          rw [htt] at hstale
          simp only [Bool.and_eq_true, decide_eq_true_eq] at hstale
          obtain ⟨hh, hrest⟩ := hstale
          cases hdet : get_article_details fetch now ("https://finance.naver.com" ++ href) with
          | none => rw [hdet] at hrest; simp at hrest
          | some art =>
            rw [hdet] at hrest
            dsimp only at hrest
            cases hpd : parseDate art.date with
            | none => rw [hpd] at hrest; simp at hrest
            | some ad =>
              rw [hpd] at hrest
              dsimp only at hrest
              simp only [decide_eq_true_eq] at hrest
              have hpd2 : parseDate ({ art with source := "Naver Finance - Stock " ++ code } : News).date
                  = some ad := hpd
              have hred : ∀ rr, stockProcessRows fetch now cutoff code (row0 :: rr) acc
                  = (acc, true) := by
                intro rr
                rw [stockProcessRows_cons, if_neg (by rw [hth]; decide), htt]
                dsimp only
                rw [if_neg hh, hdet]
                dsimp only
                rw [hpd2]
                dsimp only
                rw [if_pos hrest]
              rw [hred rest, List.take_succ_cons, List.take_zero, hred []]
              exact ⟨rfl, rfl⟩
    | succ k =>
      rw [List.getElem?_cons_succ] at hk
      rcases stockStep fetch now cutoff code row0 with hstop | ⟨g, hg⟩
      · rw [List.take_succ_cons, hstop rest acc, hstop (rest.take (k + 1)) acc]
        exact ⟨rfl, rfl⟩
      · rw [List.take_succ_cons, hg rest acc, hg (rest.take (k + 1)) acc]
        exact ih k row (g acc) hk hstale

theorem stockLoop_cons (f : Nat → Option (Option (List StockRow)))
    (fetch : String → Option ArticlePage) (now cutoff : Date) (code : String)
    (p : Nat) (ps : List Nat) (acc : List News) :
    stockLoop f fetch now cutoff code (p :: ps) acc =
      match f p with
      | none => (acc, 1)
      | some none => (acc, 1)
      | some (some rows) =>
        match stockProcessRows fetch now cutoff code rows acc with
        | (acc1, true) => (acc1, 1)
        | (acc1, false) =>
          ((stockLoop f fetch now cutoff code ps acc1).1,
            (stockLoop f fetch now cutoff code ps acc1).2 + 1) := rfl

theorem stockLoop_stale (f g : Nat → Option (Option (List StockRow)))
    (fetch : String → Option ArticlePage) (now cutoff : Date) (code : String)
    (p : Nat) (rows : List StockRow) (k : Nat) (row : StockRow)
    (hf : f p = some (some rows)) (hk : rows[k]? = some row)
    (hstale : stockEvalStale fetch now cutoff row = true)
    (hagree : ∀ q, q < p → g q = f q) (hgp : g p = some (some (rows.take (k + 1)))) :
    ∀ (len s : Nat) (acc : List News), s ≤ p → p < s + len →
      (stockLoop f fetch now cutoff code (List.range' s len) acc).2 ≤ p + 1 - s ∧
      stockLoop g fetch now cutoff code (List.range' s len) acc
        = stockLoop f fetch now cutoff code (List.range' s len) acc := by
  intro len
  induction len with
  | zero => intro s acc h1 h2; omega
  | succ n ih =>
    intro s acc hsp hps
    rw [List.range'_succ]
    by_cases hsp2 : s = p
    · subst hsp2
      obtain ⟨hflag, heq⟩ := stockProcessRows_stale fetch now cutoff code rows k row acc hk hstale
      rw [stockLoop_cons, stockLoop_cons, hf, hgp]
      dsimp only
      rcases he : stockProcessRows fetch now cutoff code rows acc with ⟨acc1, flag⟩
      rw [he] at hflag heq
      simp only at hflag
      subst hflag
      rw [← heq]
      dsimp only
      exact ⟨by omega, rfl⟩
    · have hsp3 : s < p := lt_of_le_of_ne hsp hsp2
      rw [stockLoop_cons, stockLoop_cons, hagree s hsp3]
      cases hfs : f s with
      | none => dsimp only; exact ⟨by omega, rfl⟩
      | some pg =>
        cases pg with
        | none => dsimp only; exact ⟨by omega, rfl⟩
        | some rows0 =>
          dsimp only
          rcases he : stockProcessRows fetch now cutoff code rows0 acc with ⟨acc1, flag⟩
          cases flag with
          | true => dsimp only; exact ⟨by omega, rfl⟩
          | false =>
            obtain ⟨hcount, heq2⟩ := ih (s + 1) acc1 (by omega) (by omega)
            dsimp only
            refine ⟨by omega, by rw [heq2]⟩

theorem finDateStr_parses (now : Date) (hnow : validDate now = true) (dt : Option String) :
    (parseDate (finDateStr now dt)).isSome = true := by
  unfold finDateStr
  cases dt with
  | none => rw [parseDate_fmtDate now hnow]; rfl
  | some t =>
    dsimp only
    cases hp : parseYMD (toString now.year ++ "." ++ t) with
    | none => dsimp only; rw [parseDate_fmtDate now hnow]; rfl
    | some dobj => dsimp only; rw [parseDate_fmtDate dobj (parseYMD_valid hp)]; rfl

theorem detailDateStr_parses (now : Date) (hnow : validDate now = true) (tag : Option String) :
    (parseDate (detailDateStr now tag)).isSome = true := by
  unfold detailDateStr
  cases tag with
  | none => rw [parseDate_fmtDate now hnow]; rfl
  | some t =>
    dsimp only
    cases hp : parseYMDHM t with
    | some dobj => dsimp only; rw [parseDate_fmtDate dobj (parseYMDHM_valid hp)]; rfl
    | none =>
      dsimp only
      cases htok : firstTok t with
      | none => dsimp only; rw [parseDate_fmtDate now hnow]; rfl
      | some tok =>
        dsimp only
        cases hp2 : parseYMD tok with
        | some dobj => dsimp only; rw [parseDate_fmtDate dobj (parseYMD_valid hp2)]; rfl
        | none => dsimp only; rw [parseDate_fmtDate now hnow]; rfl

theorem get_article_details_date (fetch : String → Option ArticlePage) (now : Date)
    (url : String) (art : News) (hd : get_article_details fetch now url = some art)
    (hnow : validDate now = true) : (parseDate art.date).isSome = true := by
  unfold get_article_details at hd
  cases hf : fetch url with
  | none => rw [hf] at hd; exact absurd hd (by simp)
  | some pg =>
    rw [hf] at hd
    injection hd with hd
    rw [← hd]
    exact detailDateStr_parses now hnow pg.dateTag

theorem finProcessItems_dates (fetch : String → Option ArticlePage) (now cutoff : Date)
    (hnow : validDate now = true) :
    ∀ (items : List FinItem) (acc : List News),
      (∀ r ∈ acc, (parseDate r.date).isSome = true) →
      ∀ r ∈ (finProcessItems fetch now cutoff items acc).1, (parseDate r.date).isSome = true := by
  intro items
  induction items with
  | nil => intro acc hacc; exact hacc
  | cons it0 rest ih =>
    intro acc hacc
    rw [finProcessItems_cons]
    cases hlt : it0.linkTag with
    | none => exact ih acc hacc
    | some tp =>
      obtain ⟨title, href⟩ := tp
      dsimp only
      by_cases hh : href = ""
      · rw [if_pos hh]; exact ih acc hacc
      · rw [if_neg hh]
        by_cases hs : staleCheck cutoff (finDateStr now it0.dtText) = true
        · rw [if_pos hs]; exact hacc
        · rw [if_neg hs]
          refine ih _ ?_
          intro r hr
          rcases List.mem_append.mp hr with hmem | hmem
          · exact hacc r hmem
          · rw [List.mem_singleton] at hmem
            rw [hmem]
            exact finDateStr_parses now hnow it0.dtText

theorem finLoop_dates (f : Nat → Option (List FinItem)) (fetch : String → Option ArticlePage)
    (now cutoff : Date) (hnow : validDate now = true) :
    ∀ (ps : List Nat) (acc : List News),
      (∀ r ∈ acc, (parseDate r.date).isSome = true) →
      ∀ r ∈ (finLoop f fetch now cutoff ps acc).1, (parseDate r.date).isSome = true := by
  intro ps
  induction ps with
  | nil => intro acc hacc; exact hacc
  | cons p ps ih =>
    intro acc hacc
    rw [finLoop_cons]
    cases hf : f p with
    | none => exact hacc
    | some items =>
      dsimp only
      rcases he : finProcessItems fetch now cutoff items acc with ⟨acc1, flag⟩
      have hacc1 : ∀ r ∈ acc1, (parseDate r.date).isSome = true := by
        intro r hr
        have := finProcessItems_dates fetch now cutoff hnow items acc hacc
        rw [he] at this
        exact this r hr
      cases flag with
      | true => exact hacc1
      | false => exact ih acc1 hacc1

theorem stockProcessRows_dates (fetch : String → Option ArticlePage) (now cutoff : Date)
    (code : String) :
    ∀ (rows : List StockRow) (acc : List News),
      (∀ r ∈ acc, (parseDate r.date).isSome = true) →
      ∀ r ∈ (stockProcessRows fetch now cutoff code rows acc).1,
        (parseDate r.date).isSome = true := by
  intro rows
  induction rows with
  | nil => intro acc hacc; exact hacc
  | cons row0 rest ih =>
    intro acc hacc
    rw [stockProcessRows_cons]
    by_cases hth : row0.hasTh = true
    · rw [if_pos hth]; exact ih acc hacc
    · rw [if_neg hth]
      cases htt : row0.titleTag with
      | none => exact ih acc hacc
      | some tp =>
        obtain ⟨t, href⟩ := tp
        dsimp only
        by_cases hh : href = ""
        · rw [if_pos hh]; exact ih acc hacc
        · rw [if_neg hh]
          cases hdet : get_article_details fetch now ("https://finance.naver.com" ++ href) with
          | none => exact ih acc hacc
          | some art =>
            dsimp only
            cases hpd : parseDate ({ art with source := "Naver Finance - Stock " ++ code } : News).date with
            | none => exact ih acc hacc
            | some ad =>
              dsimp only
              by_cases hlt2 : toSec ad < toSec cutoff
              · rw [if_pos hlt2]; exact hacc
              · rw [if_neg hlt2]
                refine ih _ ?_
                intro r hr
                rcases List.mem_append.mp hr with hmem | hmem
                · exact hacc r hmem
                · rw [List.mem_singleton] at hmem
                  rw [hmem, hpd]
                  rfl

theorem stockLoop_dates (f : Nat → Option (Option (List StockRow)))
    (fetch : String → Option ArticlePage) (now cutoff : Date) (code : String) :
    ∀ (ps : List Nat) (acc : List News),
      (∀ r ∈ acc, (parseDate r.date).isSome = true) →
      ∀ r ∈ (stockLoop f fetch now cutoff code ps acc).1, (parseDate r.date).isSome = true := by
  intro ps
  induction ps with
  | nil => intro acc hacc; exact hacc
  | cons p ps ih =>
    intro acc hacc
    rw [stockLoop_cons]
    cases hf : f p with
    | none => exact hacc
    | some pg =>
      cases pg with
      | none => exact hacc
      | some rows =>
        dsimp only
        rcases he : stockProcessRows fetch now cutoff code rows acc with ⟨acc1, flag⟩
        have hacc1 : ∀ r ∈ acc1, (parseDate r.date).isSome = true := by
          intro r hr
          have h2 := stockProcessRows_dates fetch now cutoff code rows acc hacc
          rw [he] at h2
          exact h2 r hr
        cases flag with
        | true => exact hacc1
        | false => exact ih acc1 hacc1

theorem yahooItemRec_date (fetchBody : String → Option String) (cutoff : Date) (src : String)
    (it : FeedItem) (r : News) (h : yahooItemRec fetchBody cutoff src it = some r) :
    (parseDate r.date).isSome = true := by
  unfold yahooItemRec at h
  dsimp only at h
  split at h
  · exact absurd h (by simp)
  · split at h
    · exact absurd h (by simp)
    next pub hpub =>
      split at h
      · exact absurd h (by simp)
      · injection h with h
        rw [← h]
        rw [parseDate_fmtDate pub (parseYahooDate_valid hpub)]
        rfl

theorem apiItemRec_date (query : String) (cutoff : Date) (it : ApiItem) (r : News)
    (h : apiItemRec query cutoff it = some r) : (parseDate r.date).isSome = true := by
  unfold apiItemRec at h
  dsimp only at h
  split at h
  · exact absurd h (by simp)
  · split at h
    · exact absurd h (by simp)
    next pub hpub =>
      split at h
      · exact absurd h (by simp)
      · injection h with h
        rw [← h]
        rw [parseDate_fmtDate pub (parseRFC822z_valid hpub)]
        rfl

theorem sort_branch_of_dates (l : List News)
    (h : ∀ r ∈ l, (parseDate r.date).isSome = true) :
    sort_news_by_date l = l.mergeSort newsLE := by
  rw [sort_news_by_date, if_pos (List.all_eq_true.mpr h)]

/-- Claim C1: for every input list of records, `remove_duplicates` keeps,
within each group of records whose titles are equal after lower-casing and
trimming whitespace (the code's `title.lower().strip()` key), exactly the
record that appears first in input order and drops every later one,
regardless of which source it came from. -/
theorem remove_duplicates_keeps_first (l : List News) :
    remove_duplicates l = keepFirstTitles l := by
  rw [remove_duplicates, removeDupAux_eq_spec l [], keepFirstTitles]
  apply List.filterMap_congr
  intro i _
  cases h : l[i]? with
  | none => rw [specAt_none _ _ _ h]
  | some m =>
    rw [specAt_some _ _ _ _ h]
    simp

/-- Claim C10: deduplication is idempotent — running `remove_duplicates` on
its own output returns that output unchanged. -/
theorem remove_duplicates_idem (l : List News) :
    remove_duplicates (remove_duplicates l) = remove_duplicates l := by
  rw [remove_duplicates, remove_duplicates]
  exact removeDupAux_eq_self (removeDupAux [] l) []
    (pairwise_removeDupAux l []) (fun r _ => by simp)

/-- Claim C2: for every merged record list whose date strings all parse under
`'%Y-%m-%d %H:%M'`, `sort_news_by_date` returns a permutation of the records
ordered non-increasing by parsed timestamp, and the sort is stable: for every
timestamp value, the records carrying it keep their relative input order. -/
theorem sort_news_by_date_desc_stable (l : List News)
    (h : l.all (fun n => (parseDate n.date).isSome) = true) :
    (sort_news_by_date l).Perm l ∧
    (sort_news_by_date l).Pairwise (fun a b => newsKey b ≤ newsKey a) ∧
    ∀ t : Nat, (sort_news_by_date l).filter (fun n => newsKey n = t)
      = l.filter (fun n => newsKey n = t) := by
  have htrans : ∀ a b c : News, newsLE a b = true → newsLE b c = true → newsLE a c = true := by
    intro a b c hab hbc
    simp only [newsLE, decide_eq_true_eq] at hab hbc ⊢
    exact le_trans hbc hab
  have htotal : ∀ a b : News, (newsLE a b || newsLE b a) = true := by
    intro a b
    simp only [newsLE, Bool.or_eq_true, decide_eq_true_eq]
    exact Nat.le_total (newsKey b) (newsKey a)
  rw [sort_news_by_date, if_pos h]
  refine ⟨List.mergeSort_perm l newsLE, ?_, ?_⟩
  · exact (List.sorted_mergeSort htrans htotal l).imp
      (fun hab => by simpa only [newsLE, decide_eq_true_eq] using hab)
  · intro t
    set p : News → Bool := fun n => decide (newsKey n = t) with hp
    have hsubl : List.Sublist (l.filter p) l := List.filter_sublist l
    have hpw : (l.filter p).Pairwise (fun a b => newsLE a b = true) := by
      apply List.pairwise_of_forall_mem_list
      intro a ha b hb
      have ha2 := List.of_mem_filter ha
      have hb2 := List.of_mem_filter hb
      simp only [hp, decide_eq_true_eq] at ha2 hb2
      simp only [newsLE, decide_eq_true_eq, ha2, hb2, le_refl]
    have hsub2 : List.Sublist (l.filter p) (l.mergeSort newsLE) :=
      List.sublist_mergeSort htrans htotal hpw hsubl
    have hself : (l.filter p).filter p = l.filter p :=
      List.filter_eq_self.mpr (fun a ha => List.of_mem_filter ha)
    have hsub3 : List.Sublist (l.filter p) ((l.mergeSort newsLE).filter p) := by
      have h2 := hsub2.filter p
      rwa [hself] at h2
    have hperm : ((l.mergeSort newsLE).filter p).Perm (l.filter p) :=
      (List.mergeSort_perm l newsLE).filter p
    exact (hsub3.eq_of_length hperm.length_eq.symm).symm

/-- Witness for C2 at a concrete three-record list with a duplicate
timestamp. -/
theorem sort_news_by_date_desc_stable_witness :
    (([⟨"2026-02-24 10:30", "a", "", "", ""⟩, ⟨"2026-02-25 09:00", "b", "", "", ""⟩,
       ⟨"2026-02-24 10:30", "c", "", "", ""⟩] : List News).all
        (fun n => (parseDate n.date).isSome) = true) ∧
    ((sort_news_by_date [⟨"2026-02-24 10:30", "a", "", "", ""⟩,
        ⟨"2026-02-25 09:00", "b", "", "", ""⟩, ⟨"2026-02-24 10:30", "c", "", "", ""⟩]).Perm
      [⟨"2026-02-24 10:30", "a", "", "", ""⟩, ⟨"2026-02-25 09:00", "b", "", "", ""⟩,
       ⟨"2026-02-24 10:30", "c", "", "", ""⟩] ∧
     (sort_news_by_date [⟨"2026-02-24 10:30", "a", "", "", ""⟩,
        ⟨"2026-02-25 09:00", "b", "", "", ""⟩,
        ⟨"2026-02-24 10:30", "c", "", "", ""⟩]).Pairwise
        (fun a b => newsKey b ≤ newsKey a) ∧
     ∀ t : Nat, (sort_news_by_date [⟨"2026-02-24 10:30", "a", "", "", ""⟩,
        ⟨"2026-02-25 09:00", "b", "", "", ""⟩,
        ⟨"2026-02-24 10:30", "c", "", "", ""⟩]).filter (fun n => newsKey n = t)
      = ([⟨"2026-02-24 10:30", "a", "", "", ""⟩, ⟨"2026-02-25 09:00", "b", "", "", ""⟩,
          ⟨"2026-02-24 10:30", "c", "", "", ""⟩] : List News).filter
          (fun n => newsKey n = t)) :=
  ⟨by decide, sort_news_by_date_desc_stable _ (by decide)⟩

/-- Claim C4 (code bug): for every Naver entry point a failed primary
request returns the records accumulated so far — the empty list when the
very first request fails — and no exception escapes.  For the Yahoo
fetchers the claim fails as a defect of the code, not of the claim: the
shipped methods raise `NameError` on every call (the undefined `logger` at
yahoo_finance.py:42/:159, evaluated again by the very `except` handlers at
:102/:214 that are written to return `[]`), so they never return a list at
all. -/
theorem primary_failure_returns_partial :
    (∀ (f : Nat → Option (List FinItem)) (fetch : String → Option ArticlePage)
      (now cutoff : Date) (p : Nat) (ps : List Nat) (acc : List News),
      f p = none → finLoop f fetch now cutoff (p :: ps) acc = (acc, 1)) ∧
    (∀ (f : Nat → Option (List FinItem)) (fetch : String → Option ArticlePage)
      (now cutoff : Date) (mp : Nat), 1 ≤ mp → f 1 = none →
      get_finance_news f fetch now cutoff mp = ([], 1)) ∧
    (∀ (f : Nat → Option (Option (List StockRow))) (fetch : String → Option ArticlePage)
      (now cutoff : Date) (code : String) (p : Nat) (ps : List Nat) (acc : List News),
      f p = none → stockLoop f fetch now cutoff code (p :: ps) acc = (acc, 1)) ∧
    (∀ (f : Nat → Option (Option (List StockRow))) (fetch : String → Option ArticlePage)
      (now cutoff : Date) (code : String) (mp : Nat), 1 ≤ mp → f 1 = none →
      get_stock_news f fetch now cutoff code mp = ([], 1)) ∧
    (∀ (cred : Bool) (query : String) (cutoff : Date),
      search_news_api cred none query cutoff = []) ∧
    (∀ (feed : Option (List FeedItem)) (fb : String → Option String) (cutoff : Date)
      (ticker : String), get_news_for_ticker_run feed fb cutoff ticker = Except.error ()) ∧
    (∀ (feed : Option (List FeedItem)) (fb : String → Option String) (cutoff : Date),
      get_market_news_run feed fb cutoff = Except.error ()) := by
  refine ⟨?_, ?_, ?_, ?_, ?_, ?_, ?_⟩
  · intro f fetch now cutoff p ps acc hf
    rw [finLoop_cons, hf]
  · intro f fetch now cutoff mp hmp hf
    obtain ⟨n, rfl⟩ : ∃ n, mp = n + 1 := ⟨mp - 1, by omega⟩
    unfold get_finance_news
    rw [List.range'_succ, finLoop_cons, hf]
  · intro f fetch now cutoff code p ps acc hf
    rw [stockLoop_cons, hf]
  · intro f fetch now cutoff code mp hmp hf
    obtain ⟨n, rfl⟩ : ∃ n, mp = n + 1 := ⟨mp - 1, by omega⟩
    unfold get_stock_news
    rw [List.range'_succ, stockLoop_cons, hf]
  · intro cred query cutoff
    unfold search_news_api
    cases cred <;> rfl
  · intro feed fb cutoff ticker; rfl
  · intro feed fb cutoff; rfl

/-- Witness for C4 at concrete failing oracles, including the shipped Yahoo
fetchers evaluated at a concrete feed. -/
theorem primary_failure_returns_partial_witness :
    ((fun _ : Nat => (none : Option (List FinItem))) 3 = none) ∧
    finLoop (fun _ => none) (fun _ => none) ⟨2026, 2, 24, 15, 0, 0⟩ ⟨2026, 2, 23, 15, 0, 0⟩
      [3, 4] [⟨"2026-02-24 10:00", "t", "", "s", "u"⟩]
      = ([⟨"2026-02-24 10:00", "t", "", "s", "u"⟩], 1) ∧
    get_finance_news (fun _ => none) (fun _ => none) ⟨2026, 2, 24, 15, 0, 0⟩
      ⟨2026, 2, 23, 15, 0, 0⟩ 5 = ([], 1) ∧
    stockLoop (fun _ => none) (fun _ => none) ⟨2026, 2, 24, 15, 0, 0⟩
      ⟨2026, 2, 23, 15, 0, 0⟩ "005930" [2, 3] [⟨"2026-02-24 10:00", "t", "", "s", "u"⟩]
      = ([⟨"2026-02-24 10:00", "t", "", "s", "u"⟩], 1) ∧
    get_stock_news (fun _ => none) (fun _ => none) ⟨2026, 2, 24, 15, 0, 0⟩
      ⟨2026, 2, 23, 15, 0, 0⟩ "005930" 3 = ([], 1) ∧
    search_news_api true none "q" ⟨2026, 2, 23, 15, 0, 0⟩ = [] ∧
    get_news_for_ticker_run
      (some [⟨some "T", some "u", some "Thu, 24 Feb 2026 10:30:00 +0000", some "D"⟩])
      (fun _ => none) ⟨2026, 2, 23, 15, 0, 0⟩ "AAPL" = Except.error () ∧
    get_market_news_run
      (some [⟨some "T", some "u", some "Thu, 24 Feb 2026 10:30:00 +0000", some "D"⟩])
      (fun _ => none) ⟨2026, 2, 23, 15, 0, 0⟩ = Except.error () :=
  ⟨rfl,
   primary_failure_returns_partial.1 _ _ _ _ 3 [4] _ rfl,
   primary_failure_returns_partial.2.1 _ _ _ _ 5 (by decide) rfl,
   primary_failure_returns_partial.2.2.1 _ _ _ _ "005930" 2 [3] _ rfl,
   primary_failure_returns_partial.2.2.2.1 _ _ _ _ "005930" 3 (by decide) rfl,
   primary_failure_returns_partial.2.2.2.2.1 true "q" _,
   primary_failure_returns_partial.2.2.2.2.2.1 _ _ _ "AAPL",
   primary_failure_returns_partial.2.2.2.2.2.2 _ _ _⟩

/-- Claim C7: when every source yields zero records, `main()` returns before
producing any artifact (and, being total in the embedding, without raising);
when at least one source yields records, the emptiness of the others is not
an error and the pipeline proceeds to produce the artifact. -/
theorem main_empty_and_partial :
    (∀ yahoo naver : Option (List News), mainCollect yahoo naver = [] →
      mainResult yahoo naver = none) ∧
    (∀ yahoo naver : Option (List News), mainCollect yahoo naver ≠ [] →
      (mainResult yahoo naver).isSome = true) := by
  constructor
  · intro y n h
    unfold mainResult
    rw [h]
    rfl
  · intro y n h
    unfold mainResult
    rw [if_neg (by simpa [List.isEmpty_iff] using h)]
    rfl

/-- Witness for C7: both sources empty (one of them by raising) versus one
source contributing a record. -/
theorem main_empty_and_partial_witness :
    (mainCollect (some []) none = []) ∧
    mainResult (some []) none = none ∧
    (mainCollect (some [⟨"2026-02-24 10:30", "t", "", "s", ""⟩]) (some []) ≠ []) ∧
    (mainResult (some [⟨"2026-02-24 10:30", "t", "", "s", ""⟩]) (some [])).isSome = true :=
  ⟨rfl, main_empty_and_partial.1 (some []) none rfl, by decide,
   main_empty_and_partial.2 (some [⟨"2026-02-24 10:30", "t", "", "s", ""⟩]) (some [])
     (by decide)⟩

/-- Claim C8 (code bug): the shipped Yahoo fetchers never emit any record —
every call raises `NameError` (the undefined `logger` at yahoo_finance.py:42
and :159, evaluated again by the `except` handlers at :102 and :214) — so
the claimed description-fallback applies to no real emission.  The fallback
is nonetheless the loop body's evident intent: under a bound `logger`, an
emitted record's content is the feed item's description exactly when
full-body extraction yielded the empty string, and the extracted body
otherwise. -/
theorem yahoo_fetchers_never_emit :
    (∀ (feed : Option (List FeedItem)) (fb : String → Option String) (cutoff : Date)
      (ticker : String),
      get_news_for_ticker_run feed fb cutoff ticker = Except.error ()) ∧
    (∀ (feed : Option (List FeedItem)) (fb : String → Option String) (cutoff : Date),
      get_market_news_run feed fb cutoff = Except.error ()) ∧
    (∀ (fb : String → Option String) (cutoff : Date) (src : String) (it : FeedItem)
      (r : News),
      yahooItemRec fb cutoff src it = some r →
      r.content = if get_article_content fb (it.link.getD "") = ""
        then it.description.getD "" else get_article_content fb (it.link.getD "")) := by
  refine ⟨fun feed fb cutoff ticker => rfl, fun feed fb cutoff => rfl, ?_⟩
  intro fb cutoff src it r h
  unfold yahooItemRec at h
  dsimp only at h
  split at h
  · exact absurd h (by simp)
  · split at h
    · exact absurd h (by simp)
    next pub hpub =>
      split at h
      · exact absurd h (by simp)
      · injection h with h
        rw [← h]

/-- Witness for C8 at the shipped fetchers on a concrete feed, and at a
concrete loop-body emission with an empty extracted body. -/
theorem yahoo_fetchers_never_emit_witness :
    get_news_for_ticker_run
      (some [⟨some "T", some "u", some "Thu, 24 Feb 2026 10:30:00 +0000", some "D"⟩])
      (fun _ => some "") ⟨2026, 2, 23, 15, 0, 0⟩ "AAPL" = Except.error () ∧
    get_market_news_run
      (some [⟨some "T", some "u", some "Thu, 24 Feb 2026 10:30:00 +0000", some "D"⟩])
      (fun _ => some "") ⟨2026, 2, 23, 15, 0, 0⟩ = Except.error () ∧
    (yahooItemRec (fun _ => some "") ⟨2026, 2, 23, 15, 0, 0⟩ "Yahoo Finance - AAPL"
        ⟨some "T", some "u", some "Thu, 24 Feb 2026 10:30:00 +0000", some "D"⟩
      = some ⟨"2026-02-24 10:30", "T", "D", "Yahoo Finance - AAPL", "u"⟩) ∧
    (⟨"2026-02-24 10:30", "T", "D", "Yahoo Finance - AAPL", "u"⟩ : News).content
      = if get_article_content (fun _ => some "")
          ((⟨some "T", some "u", some "Thu, 24 Feb 2026 10:30:00 +0000",
            some "D"⟩ : FeedItem).link.getD "") = ""
        then (⟨some "T", some "u", some "Thu, 24 Feb 2026 10:30:00 +0000",
          some "D"⟩ : FeedItem).description.getD ""
        else get_article_content (fun _ => some "")
          ((⟨some "T", some "u", some "Thu, 24 Feb 2026 10:30:00 +0000",
            some "D"⟩ : FeedItem).link.getD "") :=
  ⟨yahoo_fetchers_never_emit.1
     (some [⟨some "T", some "u", some "Thu, 24 Feb 2026 10:30:00 +0000", some "D"⟩])
     (fun _ => some "") ⟨2026, 2, 23, 15, 0, 0⟩ "AAPL",
   yahoo_fetchers_never_emit.2.1
     (some [⟨some "T", some "u", some "Thu, 24 Feb 2026 10:30:00 +0000", some "D"⟩])
     (fun _ => some "") ⟨2026, 2, 23, 15, 0, 0⟩,
   by decide,
   yahoo_fetchers_never_emit.2.2 (fun _ => some "") ⟨2026, 2, 23, 15, 0, 0⟩
     "Yahoo Finance - AAPL"
     ⟨some "T", some "u", some "Thu, 24 Feb 2026 10:30:00 +0000", some "D"⟩
     ⟨"2026-02-24 10:30", "T", "D", "Yahoo Finance - AAPL", "u"⟩ (by decide)⟩

/-- Claim C5 counterexample: in the Naver search-API path — live, faithfully
embedded code — a date-normalization failure does not fall back to the
current wall-clock time; the item is dropped instead.  At the concrete
malformed `pubDate` `"not a date"` the `strptime` raises (`parseRFC822z`
returns `none`), the per-item `except ... continue` skips the item, and the
search emits no record at all, where the claim would predict one record
carrying the fallback "now" timestamp. -/
theorem date_fallback_counterexample :
    parseRFC822z "not a date" = none ∧
    apiItemRec "q" ⟨2026, 2, 23, 15, 0, 0⟩
      ⟨some "T", some "D", some "u", some "not a date"⟩ = none ∧
    search_news_api true (some [⟨some "T", some "D", some "u", some "not a date"⟩])
      "q" ⟨2026, 2, 23, 15, 0, 0⟩ = [] := by
  exact ⟨by decide, by decide, by decide⟩

/-- Claim C5 (amended): date normalization in the reachable paths never
raises.  In the Naver listing and article-detail paths a parse failure falls
back to the formatted current time, whose re-parsed value is at most the
current time.  In the Naver search-API path a parse failure instead causes
the item to be skipped, with no fallback timestamp.  The Yahoo fetchers
raise `NameError` (undefined `logger`) on entry, before any date
normalization, so their date-parsing code never runs. -/
theorem date_normalization_amended :
    (∀ (now : Date) (t : String), parseYMD (toString now.year ++ "." ++ t) = none →
      finDateStr now (some t) = fmtDate now) ∧
    (∀ now : Date, finDateStr now none = fmtDate now) ∧
    (∀ (now : Date) (t : String), parseYMDHM t = none →
      (∀ tok, firstTok t = some tok → parseYMD tok = none) →
      detailDateStr now (some t) = fmtDate now) ∧
    (∀ now : Date, detailDateStr now none = fmtDate now) ∧
    (∀ now : Date, validDate now = true →
      parseDate (fmtDate now)
        = some ⟨now.year, now.month, now.day, now.hour, now.minute, 0⟩ ∧
      toSec ⟨now.year, now.month, now.day, now.hour, now.minute, 0⟩ ≤ toSec now) ∧
    (∀ (query : String) (cutoff : Date) (it : ApiItem),
      parseRFC822z (it.pubDate.getD "") = none → apiItemRec query cutoff it = none) ∧
    (∀ (feed : Option (List FeedItem)) (fb : String → Option String) (cutoff : Date)
      (ticker : String), get_news_for_ticker_run feed fb cutoff ticker = Except.error ()) ∧
    (∀ (feed : Option (List FeedItem)) (fb : String → Option String) (cutoff : Date),
      get_market_news_run feed fb cutoff = Except.error ()) := by
  refine ⟨?_, ?_, ?_, ?_, ?_, ?_, ?_, ?_⟩
  · intro now t h
    unfold finDateStr
    dsimp only
    rw [h]
  · intro now; rfl
  · intro now t h1 h2
    unfold detailDateStr
    dsimp only
    rw [h1]
    cases htok : firstTok t with
    | none => rfl
    | some tok =>
      dsimp only
      rw [h2 tok htok]
  · intro now; rfl
  · intro now hnow
    refine ⟨parseDate_fmtDate now hnow, ?_⟩
    unfold toSec
    dsimp only
    omega
  · intro query cutoff it h
    unfold apiItemRec
    dsimp only
    by_cases hne : it.pubDate.getD "" = ""
    · rw [if_pos hne]
    · rw [if_neg hne, h]
  · intro feed fb cutoff ticker; rfl
  · intro feed fb cutoff; rfl

/-- Witness for C5 (amended) at concrete malformed dates, a concrete current
time, and the shipped Yahoo fetchers at a concrete feed. -/
theorem date_normalization_amended_witness :
    (parseYMD (toString (⟨2026, 2, 24, 15, 30, 0⟩ : Date).year ++ "." ++ "junk") = none) ∧
    finDateStr ⟨2026, 2, 24, 15, 30, 0⟩ (some "junk") = fmtDate ⟨2026, 2, 24, 15, 30, 0⟩ ∧
    finDateStr ⟨2026, 2, 24, 15, 30, 0⟩ none = fmtDate ⟨2026, 2, 24, 15, 30, 0⟩ ∧
    (parseYMDHM "junk" = none) ∧
    detailDateStr ⟨2026, 2, 24, 15, 30, 0⟩ (some "junk") = fmtDate ⟨2026, 2, 24, 15, 30, 0⟩ ∧
    detailDateStr ⟨2026, 2, 24, 15, 30, 0⟩ none = fmtDate ⟨2026, 2, 24, 15, 30, 0⟩ ∧
    (validDate ⟨2026, 2, 24, 15, 30, 0⟩ = true) ∧
    (parseDate (fmtDate ⟨2026, 2, 24, 15, 30, 0⟩) = some ⟨2026, 2, 24, 15, 30, 0⟩ ∧
      toSec ⟨2026, 2, 24, 15, 30, 0⟩ ≤ toSec ⟨2026, 2, 24, 15, 30, 0⟩) ∧
    (parseRFC822z ((⟨none, none, none, some "not a date"⟩ : ApiItem).pubDate.getD "")
      = none) ∧
    apiItemRec "q" ⟨2026, 2, 23, 15, 0, 0⟩ ⟨none, none, none, some "not a date"⟩ = none ∧
    get_news_for_ticker_run (some []) (fun _ => none) ⟨2026, 2, 23, 15, 0, 0⟩ "AAPL"
      = Except.error () ∧
    get_market_news_run (some []) (fun _ => none) ⟨2026, 2, 23, 15, 0, 0⟩
      = Except.error () :=
  ⟨by decide,
   date_normalization_amended.1 ⟨2026, 2, 24, 15, 30, 0⟩ "junk" (by decide),
   date_normalization_amended.2.1 ⟨2026, 2, 24, 15, 30, 0⟩,
   by decide,
   date_normalization_amended.2.2.1 ⟨2026, 2, 24, 15, 30, 0⟩ "junk" (by decide)
     (fun tok htok => by
       have : tok = "junk" := by
         have h2 : firstTok "junk" = some "junk" := by decide
         rw [h2] at htok
         injection htok with htok
         exact htok.symm
       rw [this]
       decide),
   date_normalization_amended.2.2.2.1 ⟨2026, 2, 24, 15, 30, 0⟩,
   by decide,
   date_normalization_amended.2.2.2.2.1 ⟨2026, 2, 24, 15, 30, 0⟩ (by decide),
   by decide,
   date_normalization_amended.2.2.2.2.2.1 "q" ⟨2026, 2, 23, 15, 0, 0⟩
     ⟨none, none, none, some "not a date"⟩ (by decide),
   date_normalization_amended.2.2.2.2.2.2.1 (some []) (fun _ => none)
     ⟨2026, 2, 23, 15, 0, 0⟩ "AAPL",
   date_normalization_amended.2.2.2.2.2.2.2 (some []) (fun _ => none)
     ⟨2026, 2, 23, 15, 0, 0⟩⟩

/-- Claim C6 counterexample: in `get_stock_news` a wholly failed full-content
retrieval does reject the item.  With a concrete single-row table page and a
detail oracle that always raises (`_get_article_details` returns `{}`), the
crawl emits no record, where the claim would predict a record with an empty
body. -/
theorem stock_failed_fetch_counterexample :
    get_article_details (fun _ => none) ⟨2026, 2, 24, 15, 0, 0⟩
      "https://finance.naver.com/a" = none ∧
    get_stock_news
      (fun p => if p = 1 then some (some [⟨false, some ("T", "/a")⟩]) else some none)
      (fun _ => none) ⟨2026, 2, 24, 15, 0, 0⟩ ⟨2026, 2, 23, 15, 0, 0⟩ "005930" 3
      = ([], 2) := by
  exact ⟨by decide, by decide⟩

/-- Claim C6 (amended): in `get_finance_news` a failed or empty detail fetch
never rejects the item — the record is appended with whatever content the
detail fetch produced (empty on failure).  In `get_stock_news`, an item
whose detail fetch succeeds with empty content is still appended, but an
item whose detail fetch wholly fails is skipped.  In the Yahoo fetchers no
record is ever emitted at all: a failed article request raises `NameError`
out of `_get_article_content` (its `except` handler evaluates the undefined
`logger`), and the fetchers themselves raise `NameError` on entry. -/
theorem content_failure_amended :
    (∀ (fetch : String → Option ArticlePage) (now cutoff : Date) (it : FinItem)
      (rest : List FinItem) (acc : List News) (title href : String),
      it.linkTag = some (title, href) → href ≠ "" →
      staleCheck cutoff (finDateStr now it.dtText) = false →
      finProcessItems fetch now cutoff (it :: rest) acc
        = finProcessItems fetch now cutoff rest
            (acc ++ [⟨finDateStr now it.dtText, title,
              ((get_article_details fetch now
                ("https://finance.naver.com" ++ href)).map News.content).getD "",
              "Naver Finance", "https://finance.naver.com" ++ href⟩])) ∧
    (∀ (fetch : String → Option ArticlePage) (now cutoff : Date) (code : String)
      (row : StockRow) (rest : List StockRow) (acc : List News) (t href : String)
      (art : News) (ad : Date),
      row.hasTh = false → row.titleTag = some (t, href) → href ≠ "" →
      get_article_details fetch now ("https://finance.naver.com" ++ href) = some art →
      parseDate art.date = some ad → ¬ toSec ad < toSec cutoff →
      stockProcessRows fetch now cutoff code (row :: rest) acc
        = stockProcessRows fetch now cutoff code rest
            (acc ++ [{ art with source := "Naver Finance - Stock " ++ code }])) ∧
    (∀ (fetch : String → Option ArticlePage) (now cutoff : Date) (code : String)
      (row : StockRow) (rest : List StockRow) (acc : List News) (t href : String),
      row.hasTh = false → row.titleTag = some (t, href) → href ≠ "" →
      get_article_details fetch now ("https://finance.naver.com" ++ href) = none →
      stockProcessRows fetch now cutoff code (row :: rest) acc
        = stockProcessRows fetch now cutoff code rest acc) ∧
    (∀ (fb : String → Option String) (url : String), fb url = none →
      get_article_content_run fb url = Except.error ()) ∧
    (∀ (feed : Option (List FeedItem)) (fb : String → Option String) (cutoff : Date)
      (ticker : String),
      get_news_for_ticker_run feed fb cutoff ticker = Except.error ()) := by
  refine ⟨?_, ?_, ?_, ?_, ?_⟩
  · intro fetch now cutoff it rest acc title href hlt hh hs
    rw [finProcessItems_cons, hlt]
    dsimp only
    rw [if_neg hh, if_neg (by rw [hs]; decide)]
  · intro fetch now cutoff code row rest acc t href art ad hth htt hh hdet hpd hfresh
    rw [stockProcessRows_cons, if_neg (by rw [hth]; decide), htt]
    dsimp only
    rw [if_neg hh, hdet]
    dsimp only
    rw [show parseDate ({ art with source := "Naver Finance - Stock " ++ code } : News).date
        = some ad from hpd]
    dsimp only
    rw [if_neg hfresh]
  · intro fetch now cutoff code row rest acc t href hth htt hh hdet
    rw [stockProcessRows_cons, if_neg (by rw [hth]; decide), htt]
    dsimp only
    rw [if_neg hh, hdet]
  · intro fb url h
    unfold get_article_content_run
    rw [h]
    rfl
  · intro feed fb cutoff ticker; rfl

/-- Witness for C6 (amended) at concrete items: a finance item whose detail
fetch fails, a stock row whose detail record has empty content, a stock row
whose detail fetch fails, and the shipped Yahoo paths at concrete inputs. -/
theorem content_failure_amended_witness :
    ((⟨some ("A", "/x"), some "02.24"⟩ : FinItem).linkTag = some ("A", "/x")) ∧
    finProcessItems (fun _ => none) ⟨2026, 2, 24, 15, 0, 0⟩ ⟨2026, 2, 23, 15, 0, 0⟩
        [⟨some ("A", "/x"), some "02.24"⟩] []
      = finProcessItems (fun _ => none) ⟨2026, 2, 24, 15, 0, 0⟩ ⟨2026, 2, 23, 15, 0, 0⟩ []
          ([] ++ [⟨finDateStr ⟨2026, 2, 24, 15, 0, 0⟩ (some "02.24"), "A",
            ((get_article_details (fun _ => none) ⟨2026, 2, 24, 15, 0, 0⟩
              ("https://finance.naver.com" ++ "/x")).map News.content).getD "",
            "Naver Finance", "https://finance.naver.com" ++ "/x"⟩]) ∧
    stockProcessRows (fun _ => some ⟨some "T", some "2026.02.24 10:00", some ""⟩)
        ⟨2026, 2, 24, 15, 0, 0⟩ ⟨2026, 2, 23, 15, 0, 0⟩ "005930"
        [⟨false, some ("T", "/a")⟩] []
      = stockProcessRows (fun _ => some ⟨some "T", some "2026.02.24 10:00", some ""⟩)
          ⟨2026, 2, 24, 15, 0, 0⟩ ⟨2026, 2, 23, 15, 0, 0⟩ "005930" []
          ([] ++ [{ (⟨"2026-02-24 10:00", "T", "", "Naver Finance",
            "https://finance.naver.com/a"⟩ : News) with
              source := "Naver Finance - Stock " ++ "005930" }]) ∧
    stockProcessRows (fun _ => none) ⟨2026, 2, 24, 15, 0, 0⟩ ⟨2026, 2, 23, 15, 0, 0⟩
        "005930" [⟨false, some ("T", "/a")⟩] []
      = stockProcessRows (fun _ => none) ⟨2026, 2, 24, 15, 0, 0⟩ ⟨2026, 2, 23, 15, 0, 0⟩
          "005930" [] [] ∧
    ((fun _ : String => (none : Option String)) "u" = none) ∧
    get_article_content_run (fun _ => none) "u" = Except.error () ∧
    get_news_for_ticker_run
      (some [⟨some "T", some "u", some "Thu, 24 Feb 2026 10:30:00 +0000", some "D"⟩])
      (fun _ => none) ⟨2026, 2, 23, 15, 0, 0⟩ "AAPL" = Except.error () := by
  refine ⟨rfl, ?_, ?_, ?_, rfl, ?_, ?_⟩
  · exact content_failure_amended.1 (fun _ => none) ⟨2026, 2, 24, 15, 0, 0⟩
      ⟨2026, 2, 23, 15, 0, 0⟩ ⟨some ("A", "/x"), some "02.24"⟩ [] [] "A" "/x" rfl
      (by decide) (by decide)
  · exact content_failure_amended.2.1
      (fun _ => some ⟨some "T", some "2026.02.24 10:00", some ""⟩)
      ⟨2026, 2, 24, 15, 0, 0⟩ ⟨2026, 2, 23, 15, 0, 0⟩ "005930"
      ⟨false, some ("T", "/a")⟩ [] [] "T" "/a"
      ⟨"2026-02-24 10:00", "T", "", "Naver Finance", "https://finance.naver.com/a"⟩
      ⟨2026, 2, 24, 10, 0, 0⟩ rfl rfl (by decide) (by decide) (by decide) (by decide)
  · exact content_failure_amended.2.2.1 (fun _ => none) ⟨2026, 2, 24, 15, 0, 0⟩
      ⟨2026, 2, 23, 15, 0, 0⟩ "005930" ⟨false, some ("T", "/a")⟩ [] [] "T" "/a"
      rfl rfl (by decide) (by decide)
  · exact content_failure_amended.2.2.2.1 (fun _ => none) "u" rfl
  · exact content_failure_amended.2.2.2.2
      (some [⟨some "T", some "u", some "Thu, 24 Feb 2026 10:30:00 +0000", some "D"⟩])
      (fun _ => none) ⟨2026, 2, 23, 15, 0, 0⟩ "AAPL"

/-- Claim C3: in both paginated Naver crawls, as soon as an item that reaches
the cutoff comparison has a normalized date strictly before the cutoff, the
crawl returns at once: the number of page requests issued never exceeds the
page carrying that item, and the crawl's full result is unchanged under any
oracle that agrees on the earlier pages and truncates the current page just
after that item — so no remaining item on the page and no later page can
contribute. -/
theorem crawl_cutoff_early_exit :
    (∀ (f g : Nat → Option (List FinItem)) (fetch : String → Option ArticlePage)
      (now cutoff : Date) (max_pages p k : Nat) (items : List FinItem) (it : FinItem),
      1 ≤ p → p ≤ max_pages → f p = some items → items[k]? = some it →
      finEvalStale now cutoff it = true →
      (∀ q, q < p → g q = f q) → g p = some (items.take (k + 1)) →
      (get_finance_news f fetch now cutoff max_pages).2 ≤ p ∧
      get_finance_news g fetch now cutoff max_pages
        = get_finance_news f fetch now cutoff max_pages) ∧
    (∀ (f g : Nat → Option (Option (List StockRow))) (fetch : String → Option ArticlePage)
      (now cutoff : Date) (code : String) (max_pages p k : Nat) (rows : List StockRow)
      (row : StockRow),
      1 ≤ p → p ≤ max_pages → f p = some (some rows) → rows[k]? = some row →
      stockEvalStale fetch now cutoff row = true →
      (∀ q, q < p → g q = f q) → g p = some (some (rows.take (k + 1))) →
      (get_stock_news f fetch now cutoff code max_pages).2 ≤ p ∧
      get_stock_news g fetch now cutoff code max_pages
        = get_stock_news f fetch now cutoff code max_pages) := by
  constructor
  · intro f g fetch now cutoff mp p k items it hp1 hp2 hf hk hstale hagree hgp
    have h := finLoop_stale f g fetch now cutoff p items k it hf hk hstale hagree hgp mp 1 []
      hp1 (by omega)
    constructor
    · have h1 := h.1
      unfold get_finance_news
      omega
    · unfold get_finance_news
      exact h.2
  · intro f g fetch now cutoff code mp p k rows row hp1 hp2 hf hk hstale hagree hgp
    have h := stockLoop_stale f g fetch now cutoff code p rows k row hf hk hstale hagree hgp
      mp 1 [] hp1 (by omega)
    constructor
    · have h1 := h.1
      unfold get_stock_news
      omega
    · unfold get_stock_news
      exact h.2

/-- Witness for C3: a stale item in the middle of page 2 of a five-page
crawl, for both the finance listing and a stock's news table. -/
theorem crawl_cutoff_early_exit_witness :
    ((fun p => if p = 1 then some [(⟨some ("F", "/f"), some "02.24"⟩ : FinItem)]
        else if p = 2 then some [⟨some ("F", "/f"), some "02.24"⟩,
          ⟨some ("S", "/s"), some "02.20"⟩, ⟨some ("F", "/f"), some "02.24"⟩] else none) 2
      = some [⟨some ("F", "/f"), some "02.24"⟩, ⟨some ("S", "/s"), some "02.20"⟩,
        ⟨some ("F", "/f"), some "02.24"⟩]) ∧
    (finEvalStale ⟨2026, 2, 24, 15, 0, 0⟩ ⟨2026, 2, 23, 15, 0, 0⟩
      ⟨some ("S", "/s"), some "02.20"⟩ = true) ∧
    ((get_finance_news
        (fun p => if p = 1 then some [⟨some ("F", "/f"), some "02.24"⟩]
          else if p = 2 then some [⟨some ("F", "/f"), some "02.24"⟩,
            ⟨some ("S", "/s"), some "02.20"⟩, ⟨some ("F", "/f"), some "02.24"⟩] else none)
        (fun _ => none) ⟨2026, 2, 24, 15, 0, 0⟩ ⟨2026, 2, 23, 15, 0, 0⟩ 5).2 ≤ 2 ∧
      get_finance_news
        (fun p => if p = 1 then some [⟨some ("F", "/f"), some "02.24"⟩]
          else if p = 2 then some [⟨some ("F", "/f"), some "02.24"⟩,
            ⟨some ("S", "/s"), some "02.20"⟩] else none)
        (fun _ => none) ⟨2026, 2, 24, 15, 0, 0⟩ ⟨2026, 2, 23, 15, 0, 0⟩ 5
      = get_finance_news
        (fun p => if p = 1 then some [⟨some ("F", "/f"), some "02.24"⟩]
          else if p = 2 then some [⟨some ("F", "/f"), some "02.24"⟩,
            ⟨some ("S", "/s"), some "02.20"⟩, ⟨some ("F", "/f"), some "02.24"⟩] else none)
        (fun _ => none) ⟨2026, 2, 24, 15, 0, 0⟩ ⟨2026, 2, 23, 15, 0, 0⟩ 5) ∧
    (stockEvalStale (fun _ => some ⟨some "T", some "2026.02.20 10:00", some "body"⟩)
      ⟨2026, 2, 24, 15, 0, 0⟩ ⟨2026, 2, 23, 15, 0, 0⟩ ⟨false, some ("T", "/s")⟩ = true) ∧
    ((get_stock_news
        (fun p => if p = 1 then some (some []) else if p = 2 then
          some (some [⟨true, none⟩, ⟨false, some ("T", "/s")⟩,
            ⟨false, some ("T2", "/f")⟩]) else none)
        (fun _ => some ⟨some "T", some "2026.02.20 10:00", some "body"⟩)
        ⟨2026, 2, 24, 15, 0, 0⟩ ⟨2026, 2, 23, 15, 0, 0⟩ "005930" 3).2 ≤ 2 ∧
      get_stock_news
        (fun p => if p = 1 then some (some []) else if p = 2 then
          some (some [⟨true, none⟩, ⟨false, some ("T", "/s")⟩]) else none)
        (fun _ => some ⟨some "T", some "2026.02.20 10:00", some "body"⟩)
        ⟨2026, 2, 24, 15, 0, 0⟩ ⟨2026, 2, 23, 15, 0, 0⟩ "005930" 3
      = get_stock_news
        (fun p => if p = 1 then some (some []) else if p = 2 then
          some (some [⟨true, none⟩, ⟨false, some ("T", "/s")⟩,
            ⟨false, some ("T2", "/f")⟩]) else none)
        (fun _ => some ⟨some "T", some "2026.02.20 10:00", some "body"⟩)
        ⟨2026, 2, 24, 15, 0, 0⟩ ⟨2026, 2, 23, 15, 0, 0⟩ "005930" 3) := by
  refine ⟨by decide, by decide, ?_, by decide, ?_⟩
  · exact crawl_cutoff_early_exit.1 _ _ (fun _ => none)
      ⟨2026, 2, 24, 15, 0, 0⟩ ⟨2026, 2, 23, 15, 0, 0⟩ 5 2 1
      [⟨some ("F", "/f"), some "02.24"⟩, ⟨some ("S", "/s"), some "02.20"⟩,
        ⟨some ("F", "/f"), some "02.24"⟩]
      ⟨some ("S", "/s"), some "02.20"⟩ (by decide) (by decide) (by decide) (by decide)
      (by decide) (by decide) (by decide)
  · exact crawl_cutoff_early_exit.2 _ _
      (fun _ => some ⟨some "T", some "2026.02.20 10:00", some "body"⟩)
      ⟨2026, 2, 24, 15, 0, 0⟩ ⟨2026, 2, 23, 15, 0, 0⟩ "005930" 3 2 1
      [⟨true, none⟩, ⟨false, some ("T", "/s")⟩, ⟨false, some ("T2", "/f")⟩]
      ⟨false, some ("T", "/s")⟩ (by decide) (by decide) (by decide) (by decide)
      (by decide) (by decide) (by decide)

/-- Claim C9: every record emitted by any crawler method (the embedded
records carry exactly the fields `date`, `title`, `content`, `source`,
`url`, by the `News` structure) has a date string produced by
`strftime('%Y-%m-%d %H:%M')` that re-parses under that same format, so on
any crawler output `sort_news_by_date` takes its sorting branch and the
exception fallback (returning the list unsorted) is unreachable. -/
theorem crawler_records_canonical (now cutoff : Date) (hnow : validDate now = true) :
    (∀ (f : Nat → Option (List FinItem)) (fetch : String → Option ArticlePage) (mp : Nat),
      (∀ r ∈ (get_finance_news f fetch now cutoff mp).1, (parseDate r.date).isSome = true) ∧
      sort_news_by_date (get_finance_news f fetch now cutoff mp).1
        = ((get_finance_news f fetch now cutoff mp).1).mergeSort newsLE) ∧
    (∀ (f : Nat → Option (Option (List StockRow))) (fetch : String → Option ArticlePage)
      (code : String) (mp : Nat),
      (∀ r ∈ (get_stock_news f fetch now cutoff code mp).1,
        (parseDate r.date).isSome = true) ∧
      sort_news_by_date (get_stock_news f fetch now cutoff code mp).1
        = ((get_stock_news f fetch now cutoff code mp).1).mergeSort newsLE) ∧
    (∀ (feed : List FeedItem) (fb : String → Option String) (ticker : String),
      (∀ r ∈ get_news_for_ticker (some feed) fb cutoff ticker,
        (parseDate r.date).isSome = true) ∧
      sort_news_by_date (get_news_for_ticker (some feed) fb cutoff ticker)
        = (get_news_for_ticker (some feed) fb cutoff ticker).mergeSort newsLE) ∧
    (∀ (feed : List FeedItem) (fb : String → Option String),
      (∀ r ∈ get_market_news (some feed) fb cutoff, (parseDate r.date).isSome = true) ∧
      sort_news_by_date (get_market_news (some feed) fb cutoff)
        = (get_market_news (some feed) fb cutoff).mergeSort newsLE) ∧
    (∀ (cred : Bool) (resp : Option (List ApiItem)) (query : String),
      (∀ r ∈ search_news_api cred resp query cutoff, (parseDate r.date).isSome = true) ∧
      sort_news_by_date (search_news_api cred resp query cutoff)
        = (search_news_api cred resp query cutoff).mergeSort newsLE) := by
  refine ⟨?_, ?_, ?_, ?_, ?_⟩
  · intro f fetch mp
    have hall : ∀ r ∈ (get_finance_news f fetch now cutoff mp).1,
        (parseDate r.date).isSome = true :=
      finLoop_dates f fetch now cutoff hnow (List.range' 1 mp) [] (by intro r hr; simp at hr)
    exact ⟨hall, sort_branch_of_dates _ hall⟩
  · intro f fetch code mp
    have hall : ∀ r ∈ (get_stock_news f fetch now cutoff code mp).1,
        (parseDate r.date).isSome = true :=
      stockLoop_dates f fetch now cutoff code (List.range' 1 mp) []
        (by intro r hr; simp at hr)
    exact ⟨hall, sort_branch_of_dates _ hall⟩
  · intro feed fb ticker
    have hall : ∀ r ∈ get_news_for_ticker (some feed) fb cutoff ticker,
        (parseDate r.date).isSome = true := by
      intro r hr
      obtain ⟨it, _, heq⟩ := List.mem_filterMap.mp hr
      exact yahooItemRec_date fb cutoff _ it r heq
    exact ⟨hall, sort_branch_of_dates _ hall⟩
  · intro feed fb
    have hall : ∀ r ∈ get_market_news (some feed) fb cutoff,
        (parseDate r.date).isSome = true := by
      intro r hr
      obtain ⟨it, _, heq⟩ := List.mem_filterMap.mp hr
      exact yahooItemRec_date fb cutoff _ it r heq
    exact ⟨hall, sort_branch_of_dates _ hall⟩
  · intro cred resp query
    have hall : ∀ r ∈ search_news_api cred resp query cutoff,
        (parseDate r.date).isSome = true := by
      intro r hr
      unfold search_news_api at hr
      split at hr
      · simp at hr
      · split at hr
        · simp at hr
        · obtain ⟨it, _, heq⟩ := List.mem_filterMap.mp hr
          exact apiItemRec_date query cutoff it r heq
    exact ⟨hall, sort_branch_of_dates _ hall⟩

/-- Witness for C9 at a concrete valid current time and concrete one-item
oracles for each crawler method. -/
theorem crawler_records_canonical_witness :
    (validDate ⟨2026, 2, 24, 15, 0, 0⟩ = true) ∧
    ((∀ r ∈ (get_finance_news (fun _ => some [⟨some ("A", "/x"), some "02.24"⟩])
        (fun _ => some ⟨some "T", some "2026.02.24 10:00", some "b"⟩)
        ⟨2026, 2, 24, 15, 0, 0⟩ ⟨2026, 2, 23, 15, 0, 0⟩ 1).1,
        (parseDate r.date).isSome = true) ∧
      sort_news_by_date (get_finance_news (fun _ => some [⟨some ("A", "/x"), some "02.24"⟩])
          (fun _ => some ⟨some "T", some "2026.02.24 10:00", some "b"⟩)
          ⟨2026, 2, 24, 15, 0, 0⟩ ⟨2026, 2, 23, 15, 0, 0⟩ 1).1
        = ((get_finance_news (fun _ => some [⟨some ("A", "/x"), some "02.24"⟩])
          (fun _ => some ⟨some "T", some "2026.02.24 10:00", some "b"⟩)
          ⟨2026, 2, 24, 15, 0, 0⟩ ⟨2026, 2, 23, 15, 0, 0⟩ 1).1).mergeSort newsLE) ∧
    ((∀ r ∈ (get_stock_news (fun _ => some (some [⟨false, some ("T", "/a")⟩]))
        (fun _ => some ⟨some "T", some "2026.02.24 10:00", some "b"⟩)
        ⟨2026, 2, 24, 15, 0, 0⟩ ⟨2026, 2, 23, 15, 0, 0⟩ "005930" 1).1,
        (parseDate r.date).isSome = true) ∧
      sort_news_by_date (get_stock_news (fun _ => some (some [⟨false, some ("T", "/a")⟩]))
          (fun _ => some ⟨some "T", some "2026.02.24 10:00", some "b"⟩)
          ⟨2026, 2, 24, 15, 0, 0⟩ ⟨2026, 2, 23, 15, 0, 0⟩ "005930" 1).1
        = ((get_stock_news (fun _ => some (some [⟨false, some ("T", "/a")⟩]))
          (fun _ => some ⟨some "T", some "2026.02.24 10:00", some "b"⟩)
          ⟨2026, 2, 24, 15, 0, 0⟩ ⟨2026, 2, 23, 15, 0, 0⟩ "005930" 1).1).mergeSort newsLE) ∧
    ((∀ r ∈ get_news_for_ticker
        (some [⟨some "T", some "u", some "Thu, 24 Feb 2026 10:30:00 +0000", some "D"⟩])
        (fun _ => some "") ⟨2026, 2, 23, 15, 0, 0⟩ "AAPL",
        (parseDate r.date).isSome = true) ∧
      sort_news_by_date (get_news_for_ticker
          (some [⟨some "T", some "u", some "Thu, 24 Feb 2026 10:30:00 +0000", some "D"⟩])
          (fun _ => some "") ⟨2026, 2, 23, 15, 0, 0⟩ "AAPL")
        = (get_news_for_ticker
          (some [⟨some "T", some "u", some "Thu, 24 Feb 2026 10:30:00 +0000", some "D"⟩])
          (fun _ => some "") ⟨2026, 2, 23, 15, 0, 0⟩ "AAPL").mergeSort newsLE) ∧
    ((∀ r ∈ get_market_news
        (some [⟨some "T", some "u", some "Thu, 24 Feb 2026 10:30:00 +0000", some "D"⟩])
        (fun _ => some "") ⟨2026, 2, 23, 15, 0, 0⟩,
        (parseDate r.date).isSome = true) ∧
      sort_news_by_date (get_market_news
          (some [⟨some "T", some "u", some "Thu, 24 Feb 2026 10:30:00 +0000", some "D"⟩])
          (fun _ => some "") ⟨2026, 2, 23, 15, 0, 0⟩)
        = (get_market_news
          (some [⟨some "T", some "u", some "Thu, 24 Feb 2026 10:30:00 +0000", some "D"⟩])
          (fun _ => some "") ⟨2026, 2, 23, 15, 0, 0⟩).mergeSort newsLE) ∧
    ((∀ r ∈ search_news_api true
        (some [⟨some "T", some "D", some "u", some "Mon, 24 Feb 2026 10:30:00 +0900"⟩])
        "q" ⟨2026, 2, 23, 15, 0, 0⟩,
        (parseDate r.date).isSome = true) ∧
      sort_news_by_date (search_news_api true
          (some [⟨some "T", some "D", some "u", some "Mon, 24 Feb 2026 10:30:00 +0900"⟩])
          "q" ⟨2026, 2, 23, 15, 0, 0⟩)
        = (search_news_api true
          (some [⟨some "T", some "D", some "u", some "Mon, 24 Feb 2026 10:30:00 +0900"⟩])
          "q" ⟨2026, 2, 23, 15, 0, 0⟩).mergeSort newsLE) :=
  ⟨by decide,
   (crawler_records_canonical ⟨2026, 2, 24, 15, 0, 0⟩ ⟨2026, 2, 23, 15, 0, 0⟩
     (by decide)).1 _ _ 1,
   (crawler_records_canonical ⟨2026, 2, 24, 15, 0, 0⟩ ⟨2026, 2, 23, 15, 0, 0⟩
     (by decide)).2.1 _ _ "005930" 1,
   (crawler_records_canonical ⟨2026, 2, 24, 15, 0, 0⟩ ⟨2026, 2, 23, 15, 0, 0⟩
     (by decide)).2.2.1 _ _ "AAPL",
   (crawler_records_canonical ⟨2026, 2, 24, 15, 0, 0⟩ ⟨2026, 2, 23, 15, 0, 0⟩
     (by decide)).2.2.2.1 _ _,
   (crawler_records_canonical ⟨2026, 2, 24, 15, 0, 0⟩ ⟨2026, 2, 23, 15, 0, 0⟩
     (by decide)).2.2.2.2 true _ "q"⟩
